import Mathlib

/-!
Shallow embedding of the CodeSonify pipeline (TypeScript) in Lean 4.

Source layout:
  parser.ts  — CodeParser: language detection, tokenization, structures, metrics
  mapper.ts  — MusicMapper: token → note mapping, style presets, tempo
  composer.ts — Composer: track assembly and composition building
  midi.ts    — MidiGenerator: binary Standard MIDI File encoding (VLQ, chunks)
  diff.ts    — DiffSonifier: unified-diff parsing and diff sonification

Modelling conventions:
  * JavaScript numbers are modelled as ℚ (exact rationals); every place the
    source rounds or truncates carries an explicit `jsRound` / `Int.floor`.
    No claim in scope depends on IEEE-754 rounding of non-representable values.
  * JavaScript strings are Lean `String`s; scanning works on `String.data`
    (`List Char`).  All characters that matter to the claims are ASCII, where
    UTF-16 code units and unicode scalars coincide.
  * `new Date().toISOString()` (the only impure input of the pipeline) is
    modelled as an explicit `now : String` argument.
  * Class instances with no mutable state beyond a time cursor are modelled
    as explicit state passing.
-/

/-! ## Small JavaScript semantics helpers -/

/-- JavaScript `Math.round`: round half towards +∞, i.e. `⌊x + 1/2⌋`. -/
def jsRound (x : ℚ) : ℤ := Int.floor (x + 1/2)

/-- JavaScript 32-bit signed wrap (`x | 0`, and the result type of `<<`). -/
def toInt32 (x : ℤ) : ℤ := (x + 2 ^ 31) % 2 ^ 32 - 2 ^ 31

/-- The whitespace class used by `trim`, `\s` and the tokenizer split.
Restricted to the ASCII whitespace characters that can occur in our inputs. -/
def isJsSpace (c : Char) : Bool :=
  c = ' ' ∨ c = '\t' ∨ c = '\n' ∨ c = '\r' ∨ c = '\x0b' ∨ c = '\x0c'

/-- JavaScript regex `\w` (ASCII word character). -/
def isWordChar (c : Char) : Bool :=
  (('a' ≤ c ∧ c ≤ 'z') ∨ ('A' ≤ c ∧ c ≤ 'Z') ∨ ('0' ≤ c ∧ c ≤ '9') ∨ c = '_')

/-- JavaScript `String.prototype.trim` on a character list. -/
def jsTrim (l : List Char) : List Char :=
  (l.dropWhile isJsSpace).reverse.dropWhile isJsSpace |>.reverse

/-- `text.split(sep)` for a single-character separator; `"".split` gives `[""]`. -/
def splitOn (sep : Char) : List Char → List (List Char)
  | [] => [[]]
  | c :: cs =>
    match splitOn sep cs, decide (c = sep) with
    | r, true => [] :: r
    | [], false => [[c]]
    | h :: t, false => (c :: h) :: t

/-- `hay.includes(needle)`: contiguous substring test. -/
def containsList (hay needle : List Char) : Bool :=
  match hay with
  | [] => needle.isEmpty
  | _ :: t => needle.isPrefixOf hay || containsList t needle

/-- `String.prototype.padStart(n, '0')`. -/
def padStartZero (n : ℕ) (l : List Char) : List Char :=
  List.replicate (n - l.length) '0' ++ l

/-- Decimal digits to a natural number (`parseInt` on an all-digit string). -/
def digitsToNat (l : List Char) : ℕ :=
  l.foldl (fun acc c => acc * 10 + (c.toNat - '0'.toNat)) 0

/-! ## MIDI variable-length quantities (midi.ts `encodeVLQ`)

The source shifts with JavaScript `>>=` (32-bit signed); for inputs below
`2^31` — which covers every call site and the claim's `2^28` domain — that
shift agrees with division by `2^7`, which is how the loop is modelled. -/

/-- The `while (value > 0)` loop of `encodeVLQ`: prepend continuation bytes. -/
def vlqAux (v : ℕ) (acc : List ℕ) : List ℕ :=
  if h : v = 0 then acc
  else vlqAux (v / 128) ((v % 128 + 128) :: acc)
  termination_by v
  decreasing_by exact Nat.div_lt_self (Nat.pos_of_ne_zero h) (by norm_num)

/-- midi.ts `encodeVLQ`: negative input is clamped to 0, then the value is
emitted most-significant-first in base 128 with the continuation bit `0x80`
on every byte but the last. -/
def encodeVLQ (value : ℤ) : List ℕ :=
  let v := value.toNat
  vlqAux (v / 128) [v % 128]

/-- Decoder for variable-length quantities (the spec's reading direction):
big-endian base-128 accumulation, ignoring the continuation bit. -/
def decodeVLQ (bytes : List ℕ) : ℕ :=
  bytes.foldl (fun acc b => acc * 128 + b % 128) 0

/-! ## A small regular-expression engine

parser.ts tests a fixed set of JavaScript regexes against the whole text in
`detectLanguage`.  They use only literals, character classes, `\s`, `\w`,
`\d`, `.`, `+`, `*`, `?` and a final `$` anchor, so a Brzozowski-derivative
matcher over an explicit AST is a complete model.  `RegExp.prototype.test`
is existence of a match at any position (`reTest`); a trailing `$` makes the
match end at the end of input (`reTestAtEnd`). -/

inductive RE where
  | emp : RE
  | eps : RE
  | pc (p : Char → Bool) : RE
  | cat (a b : RE) : RE
  | alt (a b : RE) : RE
  | star (a : RE) : RE

def RE.nullable : RE → Bool
  | .emp => false
  | .eps => true
  | .pc _ => false
  | .cat a b => a.nullable && b.nullable
  | .alt a b => a.nullable || b.nullable
  | .star _ => true

def RE.deriv : RE → Char → RE
  | .emp, _ => .emp
  | .eps, _ => .emp
  | .pc p, c => if p c then .eps else .emp
  | .cat a b, c =>
    if a.nullable then .alt (.cat (a.deriv c) b) (b.deriv c) else .cat (a.deriv c) b
  | .alt a b, c => .alt (a.deriv c) (b.deriv c)
  | .star a, c => .cat (a.deriv c) (.star a)

/-- Does some prefix of `l` match `r`? -/
def rePrefix (r : RE) : List Char → Bool
  | [] => r.nullable
  | c :: cs => r.nullable || rePrefix (r.deriv c) cs

/-- Does all of `l` match `r`? -/
def reFull (r : RE) : List Char → Bool
  | [] => r.nullable
  | c :: cs => reFull (r.deriv c) cs

/-- `re.test(s)` for an unanchored regex: a match starting anywhere. -/
def reTest (r : RE) : List Char → Bool
  | [] => r.nullable
  | c :: cs => rePrefix r (c :: cs) || reTest r cs

/-- `re.test(s)` for a `$`-anchored regex: a match ending at end of input. -/
def reTestAtEnd (r : RE) : List Char → Bool
  | [] => r.nullable
  | c :: cs => reFull r (c :: cs) || reTestAtEnd r cs

def RE.chr (c : Char) : RE := .pc (· = c)

def RE.lit (s : String) : RE := s.data.foldr (fun c r => .cat (.chr c) r) .eps

def RE.alts : List RE → RE := fun l => l.foldr .alt .emp

def RE.plus (r : RE) : RE := .cat r (.star r)

def RE.opt (r : RE) : RE := .alt r .eps

/-- `\s` -/
def RE.ws : RE := .pc isJsSpace

/-- `\w` -/
def RE.wc : RE := .pc isWordChar

/-- `\d` -/
def RE.dig : RE := .pc Char.isDigit

/-- `.` (anything but a line terminator; ` / ` omitted — they do
not occur in any input considered here). -/
def RE.dot : RE := .pc (fun c => ¬ (c = '\n' ∨ c = '\r'))

/-- A compiled JavaScript regex: AST plus whether it ends with `$`. -/
structure JsPattern where
  re : RE
  anchoredEnd : Bool

def JsPattern.test (p : JsPattern) (s : List Char) : Bool :=
  if p.anchoredEnd then reTestAtEnd p.re s else reTest p.re s

/-! ## Data model (types.ts) -/

inductive CodeLanguage where
  | javascript | typescript | python | java | csharp | go | rust | unknown
deriving DecidableEq, Repr

def CodeLanguage.str : CodeLanguage → String
  | .javascript => "javascript"
  | .typescript => "typescript"
  | .python => "python"
  | .java => "java"
  | .csharp => "csharp"
  | .go => "go"
  | .rust => "rust"
  | .unknown => "unknown"

inductive TokenType where
  | function | loop | conditional | variable | operator | string | number
  | comment | classTok | import | returnTok | error | bracketOpen | bracketClose
  | whitespace | keyword | unknown
deriving DecidableEq, Repr

structure CodeToken where
  type : TokenType
  value : String
  line : ℕ
  column : ℕ
  depth : ℕ
deriving DecidableEq, Repr

structure CodeMetrics where
  totalLines : ℕ
  codeLines : ℤ
  commentLines : ℕ
  emptyLines : ℕ
  functionCount : ℕ
  loopCount : ℕ
  conditionalCount : ℕ
  variableCount : ℕ
  maxNestingDepth : ℕ
  complexity : ℤ
  classCount : ℕ
  importCount : ℕ
  errorCount : ℕ
deriving DecidableEq, Repr

inductive CodeStructure where
  | mk (type : TokenType) (name : String) (startLine endLine depth : ℕ)
       (children : List CodeStructure)

structure CodeAnalysis where
  language : CodeLanguage
  tokens : List CodeToken
  metrics : CodeMetrics
  structures : List CodeStructure

inductive NoteName where
  | C | Cs | D | Ds | E | F | Fs | G | Gs | A | As | B
deriving DecidableEq, Repr

def NoteName.str : NoteName → String
  | .C => "C" | .Cs => "C#" | .D => "D" | .Ds => "D#" | .E => "E" | .F => "F"
  | .Fs => "F#" | .G => "G" | .Gs => "G#" | .A => "A" | .As => "A#" | .B => "B"

inductive Duration where
  | n16 | n8 | n8d | n4 | n4d | n2 | n2d | n1
deriving DecidableEq, Repr

inductive ScaleType where
  | major | minor | pentatonic | blues | chromatic | dorian | mixolydian | lydian
deriving DecidableEq, Repr

inductive Waveform where
  | sine | square | sawtooth | triangle
deriving DecidableEq, Repr

inductive InstrumentType where
  | melody | bass | harmony | percussion | ambient | dissonance
deriving DecidableEq, Repr

structure MusicNote where
  note : String
  duration : Duration
  velocity : ℚ
  time : ℚ
  instrument : InstrumentType
deriving DecidableEq, Repr

inductive EffectType where
  | reverb | delay | distortion | chorus | filter
deriving DecidableEq, Repr

structure TrackEffect where
  type : EffectType
  params : List (String × ℚ)
deriving DecidableEq, Repr

structure MusicTrack where
  name : String
  instrument : InstrumentType
  waveform : Waveform
  volume : ℚ
  notes : List MusicNote
  effects : List TrackEffect
deriving DecidableEq, Repr

structure CompositionMetadata where
  sourceLanguage : CodeLanguage
  linesAnalyzed : ℕ
  complexity : ℤ
  generatedAt : String
  codeHash : String
  musicalInterpretation : String
deriving DecidableEq, Repr

structure MusicComposition where
  title : String
  tempo : ℤ
  timeSignature : ℤ × ℤ
  key : NoteName
  scale : ScaleType
  duration : ℚ
  tracks : List MusicTrack
  metadata : CompositionMetadata
deriving DecidableEq, Repr

inductive MusicStyle where
  | classical | electronic | ambient | jazz | rock
deriving DecidableEq, Repr

def MusicStyle.str : MusicStyle → String
  | .classical => "classical"
  | .electronic => "electronic"
  | .ambient => "ambient"
  | .jazz => "jazz"
  | .rock => "rock"

structure SonifyRequest where
  code : String
  language : Option CodeLanguage
  style : Option MusicStyle

def CodeStructure.addChild : CodeStructure → CodeStructure → CodeStructure
  | .mk ty n s e d cs, child => .mk ty n s e d (cs ++ [child])

def CodeStructure.startLine : CodeStructure → ℕ
  | .mk _ _ s _ _ _ => s

def CodeStructure.endLine : CodeStructure → ℕ
  | .mk _ _ _ e _ _ => e

/-! ## parser.ts — CodeParser -/

namespace CodeParser

/-- parser.ts `LANGUAGE_SIGNATURES`: the per-language regex signature lists,
in object-literal (and hence iteration) order.  `unknown` has no patterns. -/
def LANGUAGE_SIGNATURES : List (CodeLanguage × List JsPattern) :=
  [ (.typescript,
      [ ⟨.cat (.chr ':') (.cat (.star .ws) (.alts
          [.lit "string", .lit "number", .lit "boolean", .lit "any",
           .lit "void", .lit "never"])), false⟩,
        ⟨.cat (.lit "interface") (.cat (.plus .ws) (.plus .wc)), false⟩,
        ⟨.cat (.lit "import") (.cat (.plus .ws) (.cat (.star .dot)
          (.cat (.lit "from") (.cat (.plus .ws)
            (.alts [.chr '\'', .chr '"']))))), false⟩,
        ⟨.cat (.chr '?') (.cat (.chr '.') (.plus .wc)), false⟩,
        ⟨.cat (.chr '<') (.cat (.plus .wc) (.chr '>')), false⟩ ]),
    (.javascript,
      [ ⟨.cat (.lit "const") (.cat (.plus .ws) (.cat (.plus .wc)
          (.cat (.star .ws) (.chr '=')))), false⟩,
        ⟨.cat (.lit "let") (.cat (.plus .ws) (.plus .wc)), false⟩,
        ⟨.cat (.lit "=>") (.cat (.star .ws) (.opt (.chr '{'))), false⟩,
        ⟨.cat (.lit "require") (.chr '('), false⟩,
        ⟨.lit "module.exports", false⟩ ]),
    (.python,
      [ ⟨.cat (.lit "def") (.cat (.plus .ws) (.cat (.plus .wc) (.chr '('))), false⟩,
        ⟨.cat (.lit "import") (.cat (.plus .ws) (.plus .wc)), false⟩,
        ⟨.cat (.lit "class") (.cat (.plus .ws) (.cat (.plus .wc) (.chr ':'))), false⟩,
        ⟨.cat (.lit "if") (.cat (.plus .ws) (.cat (.star .dot) (.chr ':'))), true⟩,
        ⟨.cat (.lit "print") (.chr '('), false⟩ ]),
    (.java,
      [ ⟨.cat (.lit "public") (.cat (.plus .ws) (.cat
          (.opt (.cat (.lit "static") (.plus .ws))) (.lit "class"))), false⟩,
        ⟨.lit "System.out", false⟩,
        ⟨.cat (.lit "void") (.cat (.plus .ws) (.lit "main")), false⟩,
        ⟨.cat (.lit "private") (.cat (.plus .ws) (.plus .wc)), false⟩,
        ⟨.cat (.lit "import") (.cat (.plus .ws) (.lit "java.")), false⟩ ]),
    (.csharp,
      [ ⟨.cat (.lit "using") (.cat (.plus .ws) (.lit "System")), false⟩,
        ⟨.cat (.lit "namespace") (.cat (.plus .ws) (.plus .wc)), false⟩,
        ⟨.cat (.lit "public") (.cat (.plus .ws) (.lit "class")), false⟩,
        ⟨.lit "Console.Write", false⟩,
        ⟨.cat (.chr '[') (.cat (.star .dot) (.cat (.chr ']') (.star .ws))), true⟩ ]),
    (.go,
      [ ⟨.cat (.lit "func") (.cat (.plus .ws) (.cat (.plus .wc) (.chr '('))), false⟩,
        ⟨.cat (.lit "package") (.cat (.plus .ws) (.plus .wc)), false⟩,
        ⟨.cat (.lit "import") (.cat (.plus .ws) (.chr '(')), false⟩,
        ⟨.lit "fmt.Print", false⟩,
        ⟨.cat (.lit ":=") (.star .ws), false⟩ ]),
    (.rust,
      [ ⟨.cat (.lit "fn") (.cat (.plus .ws) (.cat (.plus .wc) (.chr '('))), false⟩,
        ⟨.cat (.lit "let") (.cat (.plus .ws) (.cat (.lit "mut") (.plus .ws))), false⟩,
        ⟨.cat (.lit "impl") (.cat (.plus .ws) (.plus .wc)), false⟩,
        ⟨.cat (.lit "pub") (.cat (.plus .ws) (.lit "fn")), false⟩,
        ⟨.cat (.lit "use") (.cat (.plus .ws) (.cat (.plus .wc) (.lit "::"))), false⟩ ]) ]

/-- parser.ts `detectLanguage`: count matching signatures per language, take
the first language whose score strictly beats the best so far; zero matches
give `unknown`. -/
def detectLanguage (code : String) : CodeLanguage :=
  let scores := LANGUAGE_SIGNATURES.map (fun (lang, pats) =>
    (lang, (pats.filter (fun p => p.test code.data)).length))
  let best := scores.foldl
    (fun (acc : CodeLanguage × ℕ) (entry : CodeLanguage × ℕ) =>
      if acc.2 < entry.2 then (entry.1, entry.2) else acc)
    (.unknown, 0)
  best.1

/-- parser.ts `LANGUAGE_KEYWORDS` (keyword → token type table). -/
def LANGUAGE_KEYWORDS : List (String × TokenType) :=
  [ ("function", .function), ("def", .function), ("fn", .function),
    ("func", .function), ("async", .function), ("await", .function),
    ("lambda", .function),
    ("for", .loop), ("while", .loop), ("do", .loop), ("foreach", .loop),
    ("loop", .loop), ("each", .loop), ("map", .loop), ("filter", .loop),
    ("reduce", .loop), ("forEach", .loop),
    ("if", .conditional), ("else", .conditional), ("elif", .conditional),
    ("switch", .conditional), ("case", .conditional), ("match", .conditional),
    ("when", .conditional), ("unless", .conditional), ("ternary", .conditional),
    ("var", .variable), ("let", .variable), ("const", .variable),
    ("val", .variable), ("mut", .variable), ("static", .variable),
    ("class", .classTok), ("struct", .classTok), ("interface", .classTok),
    ("enum", .classTok), ("trait", .classTok), ("type", .classTok),
    ("import", .import), ("require", .import), ("use", .import),
    ("using", .import), ("include", .import), ("from", .import),
    ("return", .returnTok), ("yield", .returnTok), ("throw", .returnTok),
    ("new", .keyword), ("this", .keyword), ("self", .keyword),
    ("super", .keyword), ("null", .keyword), ("nil", .keyword),
    ("true", .keyword), ("false", .keyword), ("undefined", .keyword),
    ("try", .keyword), ("catch", .keyword), ("finally", .keyword),
    ("public", .keyword), ("private", .keyword), ("protected", .keyword),
    ("export", .keyword), ("default", .keyword), ("extends", .keyword),
    ("implements", .keyword), ("abstract", .keyword), ("override", .keyword) ]

/-- Keyword lookup (`LANGUAGE_KEYWORDS[cleanWord]`; every table value is a
non-empty string, so JavaScript truthiness is plain presence). -/
def keywordLookup (w : List Char) : Option TokenType :=
  (LANGUAGE_KEYWORDS.find? (fun p => p.1.data = w)).map (·.2)

/-- The punctuation class of the tokenizer's split regex. -/
def isSepChar (c : Char) : Bool := "{}()[];,.:=<>+-*/!&|^~?@#$%".data.contains c

/-- The operator class of `/^[=+\-*\/%<>!&|^~?]+$/`. -/
def isOpChar (c : Char) : Bool := "=+-*/%<>!&|^~?".data.contains c

/-- Split a trimmed line into words as
`trimmed.split(/(\s+|[{}()\[\];,.:=<>+\-*\/!&|^~?@#$%])/g)` followed by the
`filter(w => w.trim().length > 0)`: maximal runs of non-space non-punctuation
characters, plus each punctuation character as its own word. -/
def splitWords (cur : List Char) : List Char → List (List Char)
  | [] => if cur.isEmpty then [] else [cur.reverse]
  | c :: cs =>
    if isJsSpace c then
      (if cur.isEmpty then [] else [cur.reverse]) ++ splitWords [] cs
    else if isSepChar c then
      (if cur.isEmpty then [] else [cur.reverse]) ++ [c] :: splitWords [] cs
    else splitWords (c :: cur) cs

/-- `/\w+\s*$/.test(w)` for a whitespace-free word: the last character is a
word character. -/
def endsWithWordChar (w : List Char) : Bool :=
  match w.getLast? with
  | some c => isWordChar c
  | none => false

/-- Decision procedure for the number regex `/^\d+(\.\d+)?$/`: a non-empty
digit run, optionally followed by a dot and another non-empty digit run.
(Because `.` is in the split's punctuation class, split words never actually
contain one.) -/
def isNumberWord (w : List Char) : Bool :=
  let a := w.takeWhile Char.isDigit
  match w.drop a.length with
  | [] => !a.isEmpty
  | '.' :: b => !a.isEmpty && (!b.isEmpty && b.all Char.isDigit)
  | _ => false

/-- Classify one split word (the `if/else` chain of the tokenizer's inner
loop); `line` is the full untrimmed source line, used by the
`lines[lineIdx].includes(cleanWord + '(')` function-call heuristic (the
source also guards `lineIdx < lines.length`, which always holds inside the
loop). -/
def classifyWord (w : List Char) (line : List Char) : TokenType :=
  match w with
  | [] => .unknown
  | c :: _ =>
    if c = '\'' ∨ c = '"' ∨ c = '`' then .string
    else if isNumberWord w then .number
    else if w.all isOpChar then .operator
    else if w = ['{'] ∨ w = ['('] ∨ w = ['['] then .bracketOpen
    else if w = ['}'] ∨ w = [')'] ∨ w = [']'] then .bracketClose
    else
      match keywordLookup w with
      | some t => t
      | none =>
        if endsWithWordChar w ∧ containsList line (w ++ ['(']) then .function
        else .unknown

/-- Number of opening brackets in the trimmed line (`match(/[{(\[]/g)`). -/
def countOpens (l : List Char) : ℕ := (l.filter (fun c => c = '{' ∨ c = '(' ∨ c = '[')).length

/-- Number of closing brackets in the trimmed line (`match(/[})\]]/g)`). -/
def countCloses (l : List Char) : ℕ := (l.filter (fun c => c = '}' ∨ c = ')' ∨ c = ']')).length

/-- `line.indexOf(c)` (position of the first occurrence, 0 if absent — the
source only calls this when the character is present). -/
def indexOfChar (l : List Char) (c : Char) : ℕ := (l.takeWhile (· ≠ c)).length

/-- Emit the tokens of the words of one line, tracking `columnOffset`. -/
def tokenizeWords (line : List Char) (lineNo depth : ℕ) :
    List (List Char) → ℕ → List CodeToken
  | [], _ => []
  | w :: ws, col =>
    { type := classifyWord w line, value := ⟨w⟩, line := lineNo,
      column := col, depth := depth } ::
    tokenizeWords line lineNo depth ws (col + w.length + 1)

/-- The comment-marker test of the tokenizer (`//`, `#`, `--`, `/*`, `*` at
the start of the trimmed line). -/
def isCommentLine (trimmed : List Char) : Bool :=
  ['/','/'].isPrefixOf trimmed ∨ ['#'].isPrefixOf trimmed ∨
    ['-','-'].isPrefixOf trimmed ∨ ['/','*'].isPrefixOf trimmed ∨
    ['*'].isPrefixOf trimmed

/-- Tokenize one source line at the current nesting depth; returns the line's
tokens and the depth carried to the next line (adjusted by `opens − closes`,
floored at 0). -/
def tokenizeLine (line : List Char) (lineNo depth : ℕ) : List CodeToken × ℕ :=
  let trimmed := jsTrim line
  if trimmed.isEmpty then
    ([{ type := .whitespace, value := "", line := lineNo, column := 0,
        depth := depth }], depth)
  else if isCommentLine trimmed then
    ([{ type := .comment, value := ⟨trimmed⟩, line := lineNo,
        column := indexOfChar line (trimmed.headD ' '), depth := depth }], depth)
  else
    let startCol := line.length - (line.dropWhile isJsSpace).length
    let toks := tokenizeWords line lineNo depth (splitWords [] trimmed) startCol
    (toks, (((depth : ℤ) + countOpens trimmed) - countCloses trimmed).toNat)

/-- The tokenizer's line loop. -/
def tokenizeLines : List (List Char) → ℕ → ℕ → List CodeToken
  | [], _, _ => []
  | l :: ls, lineNo, depth =>
    let (ts, depth') := tokenizeLine l lineNo depth
    ts ++ tokenizeLines ls (lineNo + 1) depth'

/-- parser.ts `tokenize` (lines come from `code.split('\n')`). -/
def tokenize (code : String) : List CodeToken :=
  tokenizeLines (splitOn '\n' code.data) 1 0

/-- Structure-opening token kinds (`structureTypes` in `extractStructures`). -/
def isStructural (t : TokenType) : Bool :=
  t = .function ∨ t = .classTok ∨ t = .loop ∨ t = .conditional

/-- The inner `for (j...)` scan of `extractStructures`: walk the tokens after
the opener, remembering the last line seen; stop one line before the first
later token at a strictly smaller depth on a strictly later line. -/
def findEndLine (tok : CodeToken) : List CodeToken → ℕ → ℕ
  | [], acc => acc
  | t :: ts, _ =>
    if t.depth < tok.depth ∧ tok.line < t.line then t.line - 1
    else findEndLine tok ts t.line

/-- parser.ts `isInsideStructure`. -/
def isInsideStructure (child parent : CodeStructure) : Bool :=
  parent.startLine < child.startLine ∧ child.endLine ≤ parent.endLine

/-- The backward scan of `nestStructures`: try roots from the most recent
one; the argument list here is the root list reversed. -/
def placeInRoots (s : CodeStructure) : List CodeStructure → Option (List CodeStructure)
  | [] => none
  | p :: rest =>
    if isInsideStructure s p then some (p.addChild s :: rest)
    else (placeInRoots s rest).map (p :: ·)

/-- parser.ts `nestStructures`. -/
def nestStructures (structures : List CodeStructure) : List CodeStructure :=
  structures.foldl
    (fun root s =>
      match placeInRoots s root.reverse with
      | some r => r.reverse
      | none => root ++ [s])
    []

/-- The flat-structure scan of `extractStructures` (name comes from the next
token when that token is `unknown`). -/
def extractFlat : List CodeToken → List CodeStructure
  | [] => []
  | t :: ts =>
    if isStructural t.type then
      let name := match ts with
        | u :: _ => if u.type = .unknown then u.value else t.value
        | [] => t.value
      .mk t.type name t.line (findEndLine t ts t.line) t.depth [] :: extractFlat ts
    else extractFlat ts

/-- parser.ts `extractStructures`. -/
def extractStructures (tokens : List CodeToken) : List CodeStructure :=
  nestStructures (extractFlat tokens)

/-- Count of tokens of one kind. -/
def countType (tokens : List CodeToken) (ty : TokenType) : ℕ :=
  (tokens.filter (fun t => t.type = ty)).length

/-- `Math.max(0, ...tokens.map(t => t.depth))`. -/
def maxDepth (tokens : List CodeToken) : ℕ :=
  (tokens.map (·.depth)).foldl max 0

/-- The four complexity components of `calculateMetrics`, each capped. -/
def nestingScore (tokens : List CodeToken) : ℚ := min (maxDepth tokens * 10) 30

def branchScore (tokens : List CodeToken) : ℚ :=
  min ((countType tokens .conditional + countType tokens .loop) * 5) 30

def sizeScore (codeLines : ℤ) : ℚ := min ((codeLines : ℚ) * (1/2)) 20

def functionScore (tokens : List CodeToken) : ℚ := min (countType tokens .function * 3) 20

/-- parser.ts `calculateMetrics` (its `structures` parameter is unused in the
source body and therefore not a parameter here). -/
def calculateMetrics (tokens : List CodeToken) (lines : List (List Char)) : CodeMetrics :=
  let totalLines := lines.length
  let emptyLines := (lines.filter (fun l => (jsTrim l).isEmpty)).length
  let commentLines := countType tokens .comment
  let codeLines : ℤ := (totalLines : ℤ) - emptyLines - commentLines
  let complexity : ℚ :=
    min 100 (nestingScore tokens + branchScore tokens + sizeScore codeLines +
      functionScore tokens)
  { totalLines := totalLines
    codeLines := codeLines
    commentLines := commentLines
    emptyLines := emptyLines
    functionCount := countType tokens .function
    loopCount := countType tokens .loop
    conditionalCount := countType tokens .conditional
    variableCount := countType tokens .variable
    maxNestingDepth := maxDepth tokens
    complexity := jsRound complexity
    classCount := countType tokens .classTok
    importCount := countType tokens .import
    errorCount := countType tokens .error }

/-- parser.ts `analyze` (`language || this.detectLanguage(code)`; every
`CodeLanguage` value is a non-empty string, so JavaScript truthiness is
plain presence of the optional argument). -/
def analyze (code : String) (language : Option CodeLanguage) : CodeAnalysis :=
  let detectedLanguage := language.getD (detectLanguage code)
  let lines := splitOn '\n' code.data
  let tokens := tokenize code
  let structures := extractStructures tokens
  let metrics := calculateMetrics tokens lines
  { language := detectedLanguage, tokens := tokens, metrics := metrics,
    structures := structures }

end CodeParser

/-! ## mapper.ts — MusicMapper -/

/-- mapper.ts `SCALES` (semitone intervals from the scale root). -/
def SCALES : ScaleType → List ℕ
  | .major => [0, 2, 4, 5, 7, 9, 11]
  | .minor => [0, 2, 3, 5, 7, 8, 10]
  | .pentatonic => [0, 2, 4, 7, 9]
  | .blues => [0, 3, 5, 6, 7, 10]
  | .chromatic => [0, 1, 2, 3, 4, 5, 6, 7, 8, 9, 10, 11]
  | .dorian => [0, 2, 3, 5, 7, 9, 10]
  | .mixolydian => [0, 2, 4, 5, 7, 9, 10]
  | .lydian => [0, 2, 4, 6, 7, 9, 11]

/-- mapper.ts `NOTE_NAMES`. -/
def NOTE_NAMES : List NoteName :=
  [.C, .Cs, .D, .Ds, .E, .F, .Fs, .G, .Gs, .A, .As, .B]

/-- `NOTE_NAMES[i]` (every index used is reduced mod 12, hence in range). -/
def noteAt (i : ℕ) : NoteName := NOTE_NAMES.getD i .C

/-- `NOTE_NAMES.indexOf(n)` (every `NoteName` occurs, so never `-1`). -/
def noteNameIndex (n : NoteName) : ℕ := (NOTE_NAMES.takeWhile (· ≠ n)).length

/-- `scale[i]` (indices are taken mod `scale.length` at call sites). -/
def scaleGet (l : List ℕ) (i : ℕ) : ℕ := l.getD i 0

/-- A note string such as `"C4"`: `NOTE_NAMES[semitone] + octave`. -/
def noteStr (n : NoteName) (octave : ℕ) : String := n.str ++ toString octave

/-- mapper.ts `DURATION_VALUES` (seconds at 120 BPM). -/
def DURATION_VALUES : Duration → ℚ
  | .n16 => 1/8
  | .n8 => 1/4
  | .n8d => 3/8
  | .n4 => 1/2
  | .n4d => 3/4
  | .n2 => 1
  | .n2d => 3/2
  | .n1 => 2

structure StylePreset where
  baseKey : NoteName
  scaleType : ScaleType
  tempoRange : ℚ × ℚ
  preferredWaveforms : List Waveform
  noteDurationBias : List Duration
  reverbAmount : ℚ

/-- mapper.ts `STYLE_PRESETS`. -/
def STYLE_PRESETS : MusicStyle → StylePreset
  | .classical =>
    { baseKey := .C, scaleType := .major, tempoRange := (80, 130),
      preferredWaveforms := [.sine, .triangle],
      noteDurationBias := [.n4, .n2, .n8], reverbAmount := 1/2 }
  | .electronic =>
    { baseKey := .A, scaleType := .minor, tempoRange := (110, 150),
      preferredWaveforms := [.square, .sawtooth],
      noteDurationBias := [.n8, .n16, .n4], reverbAmount := 3/10 }
  | .ambient =>
    { baseKey := .D, scaleType := .pentatonic, tempoRange := (60, 90),
      preferredWaveforms := [.sine, .triangle],
      noteDurationBias := [.n2, .n1, .n4d], reverbAmount := 4/5 }
  | .jazz =>
    { baseKey := .F, scaleType := .dorian, tempoRange := (90, 140),
      preferredWaveforms := [.sine, .triangle],
      noteDurationBias := [.n8d, .n4, .n8], reverbAmount := 2/5 }
  | .rock =>
    { baseKey := .E, scaleType := .blues, tempoRange := (100, 150),
      preferredWaveforms := [.sawtooth, .square],
      noteDurationBias := [.n8, .n4, .n16], reverbAmount := 1/5 }

structure MappingConfig where
  functionBaseOctave : ℕ
  functionScaleType : ScaleType
  functionNoteDuration : Duration
  loopBasePattern : List Duration
  loopIntensityMultiplier : ℚ
  ifChord : List NoteName
  elseChord : List NoteName
  switchScale : ScaleType
  bassBaseOctave : ℕ
  bassNoteDuration : Duration
  tempoMinBPM : ℚ
  tempoMaxBPM : ℚ
  octaveBase : ℕ
  maxOctaveShift : ℕ
  errorChordIntervals : List ℕ
  errorWaveform : Waveform

/-- mapper.ts `DEFAULT_CONFIG` (flattened field names; the nested object
shape of the source carries no behaviour). -/
def DEFAULT_CONFIG : MappingConfig :=
  { functionBaseOctave := 4, functionScaleType := .major,
    functionNoteDuration := .n4,
    loopBasePattern := [.n8, .n8, .n16, .n16, .n8],
    loopIntensityMultiplier := 6/5,
    ifChord := [.C, .E, .G], elseChord := [.A, .C, .E],
    switchScale := .mixolydian,
    bassBaseOctave := 2, bassNoteDuration := .n2,
    tempoMinBPM := 70, tempoMaxBPM := 160,
    octaveBase := 4, maxOctaveShift := 2,
    errorChordIntervals := [1, 6, 11], errorWaveform := .sawtooth }

/-- The `MusicMapper` instance: the style preset selected in the constructor
and the mapping configuration (the repository never passes a custom config,
so the constructor's spread merge always yields `DEFAULT_CONFIG`). -/
structure MusicMapper where
  style : StylePreset
  config : MappingConfig

namespace MusicMapper

/-- `new MusicMapper(style)`. -/
def make (style : MusicStyle) : MusicMapper :=
  { style := STYLE_PRESETS style, config := DEFAULT_CONFIG }

/-- mapper.ts `calculateTempo`: linear interpolation over the *config's*
`complexityToTempo` range. -/
def calculateTempo (m : MusicMapper) (complexity : ℚ) : ℤ :=
  let minBPM := m.config.tempoMinBPM
  let maxBPM := m.config.tempoMaxBPM
  jsRound (minBPM + complexity / 100 * (maxBPM - minBPM))

/-- mapper.ts `getOctaveForDepth`. -/
def getOctaveForDepth (m : MusicMapper) (depth : ℕ) : ℕ :=
  min 7 (max 1 (m.config.octaveBase + min depth m.config.maxOctaveShift))

/-- State-passing helper for the token loops: emit notes for each element in
turn, threading the `currentTime` cursor. -/
def emitFold {α : Type} (f : α → ℚ → List MusicNote × ℚ) :
    List α → ℚ → List MusicNote × ℚ
  | [], t => ([], t)
  | x :: xs, t =>
    let (ns, t') := f x t
    let (ns2, t'') := emitFold f xs t'
    (ns ++ ns2, t'')

/-- First character code of a value (`charCodeAt(0)`; 0 when empty, which the
call sites coalesce with `||`). -/
def headCode (s : String) : ℕ :=
  match s.data with
  | [] => 0
  | c :: _ => c.toNat

/-- `parseFloat(value) || 0`, restricted to the canonical `/^\d+(\.\d+)?$/`
shape the tokenizer guarantees for `number` tokens; anything else gives 0
(in the source, `NaN || 0`; a partial leading parse cannot reach this call
because number tokens match the full regex). -/
def parseNum (s : String) : ℚ :=
  let w := s.data
  let a := w.takeWhile Char.isDigit
  match w.drop a.length with
  | [] => if a.isEmpty then 0 else digitsToNat a
  | '.' :: b =>
    if a.isEmpty ∨ b.isEmpty ∨ ¬ (b.all Char.isDigit) then 0
    else (digitsToNat a : ℚ) + (digitsToNat b : ℚ) / 10 ^ b.length
  | _ => 0

/-- mapper.ts `mapFunction`: 3–5 note ascending phrase. -/
def mapFunction (m : MusicMapper) (mult : ℚ) (tok : CodeToken) (t : ℚ) :
    List MusicNote × ℚ :=
  let scale := SCALES m.style.scaleType
  let octave := m.getOctaveForDepth tok.depth
  let base := noteNameIndex m.style.baseKey
  let phraseLength := 3 + tok.value.length % 3
  emitFold
    (fun i t =>
      let scaleIndex := i % scale.length
      let semitone := (base + scaleGet scale scaleIndex) % 12
      let noteOctave := octave + (base + scaleGet scale scaleIndex) / 12
      ([{ note := noteStr (noteAt semitone) noteOctave, duration := .n8,
          velocity := 7/10 + i * (1/20), time := t, instrument := .melody }],
       t + DURATION_VALUES .n8 * mult))
    (List.range phraseLength) t

/-- mapper.ts `mapLoop`: percussive pattern repeated 2 ('for') / 3 ('while')
/ 1 (otherwise) times. -/
def mapLoop (m : MusicMapper) (mult : ℚ) (tok : CodeToken) (t : ℚ) :
    List MusicNote × ℚ :=
  let pattern := m.config.loopBasePattern
  let octave := m.getOctaveForDepth tok.depth
  let reps := if tok.value = "for" then 2 else if tok.value = "while" then 3 else 1
  emitFold
    (fun r t =>
      emitFold
        (fun dur t =>
          ([{ note := noteStr m.style.baseKey octave, duration := dur,
              velocity := 3/5 + r * (1/10), time := t,
              instrument := .percussion }],
           t + DURATION_VALUES dur * mult * (1/2)))
        pattern t)
    (List.range reps) t

/-- mapper.ts `mapConditional`: simultaneous three-note chord, then one
quarter-note advance. -/
def mapConditional (m : MusicMapper) (mult : ℚ) (tok : CodeToken) (t : ℚ) :
    List MusicNote × ℚ :=
  let octave := m.getOctaveForDepth tok.depth
  let isElse := tok.value = "else" ∨ tok.value = "elif"
  let chordNotes := if isElse then m.config.elseChord else m.config.ifChord
  (chordNotes.map (fun cn =>
    { note := noteStr cn octave, duration := .n4, velocity := 1/2,
      time := t, instrument := .harmony }),
   t + DURATION_VALUES .n4 * mult)

/-- mapper.ts `mapVariable`: one sustained bass note. -/
def mapVariable (m : MusicMapper) (mult : ℚ) (tok : CodeToken) (t : ℚ) :
    List MusicNote × ℚ :=
  let baseOctave := m.config.bassBaseOctave
  let charCode := if headCode tok.value = 0 then 67 else headCode tok.value
  let noteIndex := charCode % 12
  ([{ note := noteStr (noteAt noteIndex) baseOctave, duration := .n2,
      velocity := 2/5, time := t, instrument := .bass }],
   t + DURATION_VALUES .n4 * mult)

/-- mapper.ts `mapClass`: root–fifth–octave power chord, one half-note
advance. -/
def mapClass (m : MusicMapper) (mult : ℚ) (tok : CodeToken) (t : ℚ) :
    List MusicNote × ℚ :=
  let octave := m.getOctaveForDepth tok.depth
  let base := noteNameIndex m.style.baseKey
  (([0, 7, 12] : List ℕ).map (fun interval =>
    let semitone := (base + interval) % 12
    let noteOctave := octave + (base + interval) / 12
    { note := noteStr (noteAt semitone) noteOctave, duration := .n2,
      velocity := 13/20, time := t, instrument := .melody }),
   t + DURATION_VALUES .n2 * mult)

/-- mapper.ts `mapString`: one soft pentatonic note indexed by length. -/
def mapString (m : MusicMapper) (mult : ℚ) (tok : CodeToken) (t : ℚ) :
    List MusicNote × ℚ :=
  let scale := SCALES .pentatonic
  let scaleIndex := tok.value.length % scale.length
  let base := noteNameIndex m.style.baseKey
  let semitone := (base + scaleGet scale scaleIndex) % 12
  ([{ note := noteStr (noteAt semitone) 5, duration := .n4, velocity := 7/20,
      time := t, instrument := .ambient }],
   t + DURATION_VALUES .n8 * mult)

/-- mapper.ts `mapNumber`: staccato note, pitch class = value mod 12. -/
def mapNumber (m : MusicMapper) (mult : ℚ) (tok : CodeToken) (t : ℚ) :
    List MusicNote × ℚ :=
  let num := parseNum tok.value
  let noteIndex := (jsRound num).natAbs % 12
  let octave := (min 7 (max 2 (3 + Int.floor (num / 100)))).toNat
  ([{ note := noteStr (noteAt noteIndex) octave, duration := .n16,
      velocity := 1/2, time := t, instrument := .melody }],
   t + DURATION_VALUES .n16 * mult)

/-- mapper.ts `mapOperator`'s lookup table (`'C3'` when unmapped). -/
def operatorNote (v : String) : String :=
  if v = "=" then "C3" else if v = "+" then "D3" else if v = "-" then "E3"
  else if v = "*" then "F3" else if v = "/" then "G3" else if v = "%" then "A3"
  else if v = "!" then "B3" else if v = "&" then "C4" else if v = "|" then "D4"
  else if v = "^" then "E4" else if v = "<" then "F4" else if v = ">" then "G4"
  else if v = "?" then "A4" else "C3"

/-- mapper.ts `mapOperator`: one quick percussive hit. -/
def mapOperator (m : MusicMapper) (mult : ℚ) (tok : CodeToken) (t : ℚ) :
    List MusicNote × ℚ :=
  ([{ note := operatorNote tok.value, duration := .n16, velocity := 3/10,
      time := t, instrument := .percussion }],
   t + DURATION_VALUES .n16 * mult * (1/2))

/-- mapper.ts `mapComment`: one quiet pentatonic pad indexed by line. -/
def mapComment (m : MusicMapper) (mult : ℚ) (tok : CodeToken) (t : ℚ) :
    List MusicNote × ℚ :=
  let scale := SCALES .pentatonic
  let base := noteNameIndex m.style.baseKey
  let scaleIndex := tok.line % scale.length
  let semitone := (base + scaleGet scale scaleIndex) % 12
  ([{ note := noteStr (noteAt semitone) 5, duration := .n2, velocity := 3/20,
      time := t, instrument := .ambient }],
   t + DURATION_VALUES .n4 * mult)

/-- mapper.ts `mapImport`: three-note rising arpeggio at octaves 4,5,6. -/
def mapImport (m : MusicMapper) (mult : ℚ) (tok : CodeToken) (t : ℚ) :
    List MusicNote × ℚ :=
  let scale := SCALES m.style.scaleType
  let base := noteNameIndex m.style.baseKey
  emitFold
    (fun i t =>
      let semitone := (base + scaleGet scale (i % scale.length)) % 12
      ([{ note := noteStr (noteAt semitone) (4 + i), duration := .n16,
          velocity := 3/10, time := t, instrument := .ambient }],
       t + DURATION_VALUES .n16 * mult))
    (List.range 3) t

/-- mapper.ts `mapReturn`: two-note descending resolution to the root. -/
def mapReturn (m : MusicMapper) (mult : ℚ) (tok : CodeToken) (t : ℚ) :
    List MusicNote × ℚ :=
  let base := noteNameIndex m.style.baseKey
  let n1 : MusicNote :=
    { note := noteStr (noteAt ((base + 4) % 12)) 4, duration := .n8,
      velocity := 1/2, time := t, instrument := .melody }
  let t1 := t + DURATION_VALUES .n8 * mult
  let n2 : MusicNote :=
    { note := noteStr (noteAt (base % 12)) 4, duration := .n4,
      velocity := 3/5, time := t1, instrument := .melody }
  ([n1, n2], t1 + DURATION_VALUES .n4 * mult)

/-- mapper.ts `mapError`: simultaneous dissonant cluster at octave 3. -/
def mapError (m : MusicMapper) (mult : ℚ) (tok : CodeToken) (t : ℚ) :
    List MusicNote × ℚ :=
  let base := noteNameIndex m.style.baseKey
  (m.config.errorChordIntervals.map (fun interval =>
    { note := noteStr (noteAt ((base + interval) % 12)) 3, duration := .n8,
      velocity := 4/5, time := t, instrument := .dissonance }),
   t + DURATION_VALUES .n8 * mult)

/-- mapper.ts `mapBracketOpen`: grace note, no time advance. -/
def mapBracketOpen (m : MusicMapper) (mult : ℚ) (tok : CodeToken) (t : ℚ) :
    List MusicNote × ℚ :=
  let octave := m.getOctaveForDepth tok.depth
  ([{ note := noteStr m.style.baseKey octave, duration := .n16,
      velocity := 1/5, time := t, instrument := .ambient }], t)

/-- mapper.ts `mapBracketClose`: grace note one octave down, no advance. -/
def mapBracketClose (m : MusicMapper) (mult : ℚ) (tok : CodeToken) (t : ℚ) :
    List MusicNote × ℚ :=
  let octave := max 2 (m.getOctaveForDepth tok.depth - 1)
  ([{ note := noteStr m.style.baseKey octave, duration := .n16,
      velocity := 1/5, time := t, instrument := .ambient }], t)

/-- mapper.ts `mapWhitespace`: a rest — no note, small advance. -/
def mapWhitespace (m : MusicMapper) (mult : ℚ) (t : ℚ) : List MusicNote × ℚ :=
  ([], t + DURATION_VALUES .n8 * mult * (3/10))

/-- mapper.ts `mapDefault` (keyword/unknown): a subtle background note. -/
def mapDefault (m : MusicMapper) (mult : ℚ) (tok : CodeToken) (t : ℚ) :
    List MusicNote × ℚ :=
  let charCode := headCode tok.value % 12
  let octave := m.getOctaveForDepth tok.depth
  ([{ note := noteStr (noteAt charCode) octave, duration := .n16,
      velocity := 3/20, time := t, instrument := .ambient }],
   t + DURATION_VALUES .n16 * mult * (3/10))

/-- mapper.ts `mapToken`: dispatch on the token kind. -/
def mapToken (m : MusicMapper) (mult : ℚ) (tok : CodeToken) (t : ℚ) :
    List MusicNote × ℚ :=
  match tok.type with
  | .function => m.mapFunction mult tok t
  | .loop => m.mapLoop mult tok t
  | .conditional => m.mapConditional mult tok t
  | .variable => m.mapVariable mult tok t
  | .classTok => m.mapClass mult tok t
  | .string => m.mapString mult tok t
  | .number => m.mapNumber mult tok t
  | .operator => m.mapOperator mult tok t
  | .comment => m.mapComment mult tok t
  | .import => m.mapImport mult tok t
  | .returnTok => m.mapReturn mult tok t
  | .error => m.mapError mult tok t
  | .bracketOpen => m.mapBracketOpen mult tok t
  | .bracketClose => m.mapBracketClose mult tok t
  | .whitespace => m.mapWhitespace mult t
  | _ => m.mapDefault mult tok t

/-- mapper.ts `mapToNotes`, returning the emitted notes together with the
final `currentTime` cursor (which `getTotalDuration` reads afterwards). -/
def mapToNotes (m : MusicMapper) (analysis : CodeAnalysis) : List MusicNote × ℚ :=
  let tempo := m.calculateTempo (analysis.metrics.complexity : ℚ)
  let mult := 120 / (tempo : ℚ)
  emitFold (m.mapToken mult) analysis.tokens 0

end MusicMapper

/-! ## composer.ts — Composer -/

namespace Composer

/-- composer.ts `INSTRUMENT_CONFIGS`. -/
def INSTRUMENT_CONFIGS (i : InstrumentType) : Waveform × ℚ × List TrackEffect :=
  match i with
  | .melody => (.triangle, 7/10,
      [⟨.reverb, [("decay", 5/2), ("wet", 3/10)]⟩])
  | .bass => (.sine, 1/2,
      [⟨.filter, [("frequency", 400), ("type", 0)]⟩])
  | .harmony => (.sine, 2/5,
      [⟨.reverb, [("decay", 4), ("wet", 1/2)]⟩,
       ⟨.chorus, [("frequency", 3/2), ("depth", 7/10)]⟩])
  | .percussion => (.square, 1/2,
      [⟨.distortion, [("amount", 1/5)]⟩])
  | .ambient => (.sine, 1/5,
      [⟨.reverb, [("decay", 6), ("wet", 7/10)]⟩,
       ⟨.delay, [("time", 2/5), ("feedback", 3/10)]⟩])
  | .dissonance => (.sawtooth, 3/5,
      [⟨.distortion, [("amount", 1/2)]⟩,
       ⟨.filter, [("frequency", 2000), ("type", 1)]⟩])

/-- composer.ts `getTrackName`. -/
def getTrackName : InstrumentType → String
  | .melody => "🎵 Melody (Functions & Logic)"
  | .bass => "🎸 Bass (Variables & Data)"
  | .harmony => "🎹 Harmony (Conditionals & Branches)"
  | .percussion => "🥁 Rhythm (Loops & Iterations)"
  | .ambient => "🌊 Ambient (Comments & Structure)"
  | .dissonance => "⚡ Dissonance (Errors & Warnings)"

/-- One step of `organizeTracks`' grouping `Map`: append the note to its
instrument's bucket, or open a new bucket at the end (JavaScript `Map`
iteration is in key-insertion order). -/
def insertNote : List (InstrumentType × List MusicNote) → MusicNote →
    List (InstrumentType × List MusicNote)
  | [], n => [(n.instrument, [n])]
  | p :: ps, n =>
    if p.1 = n.instrument then (p.1, p.2 ++ [n]) :: ps
    else p :: insertNote ps n

/-- The grouping `Map` of `organizeTracks` / `organizeDiffTracks`. -/
def groupByInstrument (notes : List MusicNote) :
    List (InstrumentType × List MusicNote) :=
  notes.foldl insertNote []

/-- composer.ts `organizeTracks`. -/
def organizeTracks (notes : List MusicNote) : List MusicTrack :=
  (groupByInstrument notes).map (fun (instrument, trackNotes) =>
    let config := INSTRUMENT_CONFIGS instrument
    { name := getTrackName instrument, instrument := instrument,
      waveform := config.1, volume := config.2.1, notes := trackNotes,
      effects := config.2.2 })

/-- composer.ts `generateInterpretation`. -/
def generateInterpretation (analysis : CodeAnalysis) (style : MusicStyle) :
    String :=
  let metrics := analysis.metrics
  let p1 : List String :=
    if 70 < metrics.complexity then
      ["A complex, intense composition reflecting deeply nested logic"]
    else if 40 < metrics.complexity then
      ["A balanced piece with moderate complexity"]
    else
      ["A clean, minimalist arrangement reflecting simple, elegant code"]
  let p2 : List String :=
    if 5 < metrics.functionCount then
      ["with " ++ toString metrics.functionCount ++
        " melodic phrases representing well-organized functions"]
    else if 0 < metrics.functionCount then
      ["featuring " ++ toString metrics.functionCount ++ " melodic theme" ++
        (if 1 < metrics.functionCount then "s" else "")]
    else []
  let p3 : List String :=
    if 3 < metrics.loopCount then
      ["driven by strong, repetitive rhythmic patterns"]
    else if 0 < metrics.loopCount then
      ["with subtle rhythmic elements"]
    else []
  let p4 : List String :=
    if 5 < metrics.conditionalCount then
      ["rich harmonic changes reflecting branching logic"]
    else if 0 < metrics.conditionalCount then
      ["and gentle harmonic shifts"]
    else []
  let p5 : List String :=
    if 0 < metrics.errorCount then
      ["— with " ++ toString metrics.errorCount ++ " dissonant moment" ++
        (if 1 < metrics.errorCount then "s" else "") ++
        " signaling potential issues"]
    else []
  let p6 : List String := ["Rendered in " ++ style.str ++ " style"]
  let p7 : List String :=
    ["from " ++ analysis.language.str ++ " source code (" ++
      toString metrics.totalLines ++ " lines)"]
  String.intercalate ", " (p1 ++ p2 ++ p3 ++ p4 ++ p5 ++ p6 ++ p7) ++ "."

/-- composer.ts / diff.ts `simpleHash` loop body: `hash = (hash << 5) - hash
+ charCode`, coerced back to a 32-bit integer by `hash & hash`. -/
def hashStep (h : ℤ) (c : Char) : ℤ := toInt32 (toInt32 (h * 32) - h + c.toNat)

/-- Lowercase hexadecimal digits of a natural number (`toString(16)`). -/
def natToHex (n : ℕ) : List Char := Nat.toDigits 16 n

/-- composer.ts / diff.ts `simpleHash`. -/
def simpleHash (s : String) : String :=
  let h := s.data.foldl hashStep 0
  ⟨padStartZero 8 (natToHex h.natAbs)⟩

/-- composer.ts `buildComposition`'s `languageKeys` table. -/
def languageKeys : CodeLanguage → ℕ × ScaleType
  | .javascript => (0, .mixolydian)
  | .typescript => (2, .major)
  | .python => (5, .pentatonic)
  | .java => (7, .minor)
  | .csharp => (4, .lydian)
  | .go => (9, .dorian)
  | .rust => (11, .blues)
  | .unknown => (0, .major)

/-- composer.ts `buildComposition`.  `now` models `new Date().toISOString()`
— the single impure input of the pipeline. -/
def buildComposition (code : String) (analysis : CodeAnalysis)
    (tracks : List MusicTrack) (tempo : ℤ) (totalDuration : ℚ)
    (style : MusicStyle) (now : String) : MusicComposition :=
  let langConfig := languageKeys analysis.language
  let metadata : CompositionMetadata :=
    { sourceLanguage := analysis.language
      linesAnalyzed := analysis.metrics.totalLines
      complexity := analysis.metrics.complexity
      generatedAt := now
      codeHash := simpleHash code
      musicalInterpretation := generateInterpretation analysis style }
  { title := "CodeSonify: " ++ analysis.language.str ++ " composition"
    tempo := tempo
    timeSignature := (4, 4)
    key := noteAt langConfig.1
    scale := langConfig.2
    duration := totalDuration
    tracks := tracks
    metadata := metadata }

/-- composer.ts `sonify`, steps 1–4 (the composition; the visualization
payload of step 5 is presentation-only, floating-point and unconsumed by any
later stage, and is not modelled).  The returned analysis is available as
`CodeParser.analyze` directly. -/
def sonify (request : SonifyRequest) (now : String) : MusicComposition :=
  let style := request.style.getD .classical
  let analysis := CodeParser.analyze request.code request.language
  let mapper := MusicMapper.make style
  let (notes, totalDuration) := mapper.mapToNotes analysis
  let tempo := mapper.calculateTempo (analysis.metrics.complexity : ℚ)
  let tracks := organizeTracks notes
  buildComposition request.code analysis tracks tempo totalDuration style now

end Composer

/-! ## midi.ts — MidiGenerator -/

namespace MidiGenerator

def HEADER_CHUNK : List ℕ := [0x4D, 0x54, 0x68, 0x64]

def TRACK_CHUNK : List ℕ := [0x4D, 0x54, 0x72, 0x6B]

def TICKS_PER_BEAT : ℕ := 480

/-- midi.ts `NOTE_TO_MIDI` lookup, keyed by the regex capture `[A-G]#?`
(names such as `E#` are not in the table and yield `none`). -/
def NOTE_TO_MIDI : List Char → Option ℕ
  | ['C'] => some 0
  | ['C', '#'] => some 1
  | ['D'] => some 2
  | ['D', '#'] => some 3
  | ['E'] => some 4
  | ['F'] => some 5
  | ['F', '#'] => some 6
  | ['G'] => some 7
  | ['G', '#'] => some 8
  | ['A'] => some 9
  | ['A', '#'] => some 10
  | ['B'] => some 11
  | _ => none

/-- midi.ts `DURATION_TICKS` (every `Duration` is a table key, so the
`|| TICKS_PER_BEAT` fallback of the source is unreachable). -/
def DURATION_TICKS : Duration → ℕ
  | .n16 => 120
  | .n8 => 240
  | .n8d => 360
  | .n4 => 480
  | .n4d => 720
  | .n2 => 960
  | .n2d => 1440
  | .n1 => 1920

/-- midi.ts `noteStringToMidi`: parse `/^([A-G]#?)(\d+)$/` and map to
`(octave + 1) * 12 + semitone`; any failure yields middle C (60).  The
result is a natural number, so the source's `midiNote < 0` guard is
vacuous. -/
def noteStringToMidi (s : String) : ℕ :=
  match s.data with
  | [] => 60
  | c :: rest =>
    if 'A' ≤ c ∧ c ≤ 'G' then
      let (nameChars, digits) :=
        match rest with
        | '#' :: ds => ([c, '#'], ds)
        | ds => ([c], ds)
      if digits ≠ [] ∧ digits.all Char.isDigit then
        match NOTE_TO_MIDI nameChars with
        | some semitone => (digitsToNat digits + 1) * 12 + semitone
        | none => 60
      else 60
    else 60

/-- midi.ts `int32ToBytes` (big-endian; lengths stay far below `2^31`, where
the JavaScript signed shifts agree with division). -/
def int32ToBytes (v : ℕ) : List ℕ :=
  [v / 2 ^ 24 % 256, v / 2 ^ 16 % 256, v / 2 ^ 8 % 256, v % 256]

/-- midi.ts `int16ToBytes` (big-endian). -/
def int16ToBytes (v : ℕ) : List ℕ := [v / 2 ^ 8 % 256, v % 256]

/-- midi.ts `stringToBytes` (`charCodeAt` per character; all encoded strings
are ASCII after filtering, where code units and scalars agree). -/
def stringToBytes (s : String) : List ℕ := s.data.map Char.toNat

/-- midi.ts `INSTRUMENT_PROGRAMS`. -/
def INSTRUMENT_PROGRAMS : InstrumentType → ℕ
  | .melody => 0
  | .bass => 33
  | .harmony => 48
  | .percussion => 115
  | .ambient => 88
  | .dissonance => 30

/-- The `channelMap` of `generate` (total, so the `?? 0` is unreachable). -/
def channelMap : InstrumentType → ℕ
  | .melody => 0
  | .bass => 1
  | .harmony => 2
  | .percussion => 9
  | .ambient => 3
  | .dissonance => 4

/-- The `MidiTrackBuilder` state: accumulated event bytes and the forward
cursor `lastTick`.  All ticks reaching the builder are integers (every call
site rounds), so `Math.round(absoluteTick - lastTick)` is the identity. -/
structure TrackBuilder where
  events : List ℕ
  lastTick : ℤ

/-- midi.ts `MidiTrackBuilder.addEvent`. -/
def TrackBuilder.addEvent (st : TrackBuilder) (absoluteTick : ℤ)
    (eventBytes : List ℕ) : TrackBuilder :=
  let delta := max 0 (absoluteTick - st.lastTick)
  { events := st.events ++ encodeVLQ delta ++ eventBytes,
    lastTick := absoluteTick }

/-- midi.ts `MidiTrackBuilder.addMeta`. -/
def TrackBuilder.addMeta (st : TrackBuilder) (absoluteTick : ℤ)
    (metaType : ℕ) (data : List ℕ) : TrackBuilder :=
  let delta := max 0 (absoluteTick - st.lastTick)
  { events := st.events ++ encodeVLQ delta ++ [0xFF, metaType] ++
      encodeVLQ (data.length : ℤ) ++ data,
    lastTick := absoluteTick }

/-- midi.ts `addTrackName`. -/
def TrackBuilder.addTrackName (st : TrackBuilder) (name : String) :
    TrackBuilder :=
  st.addMeta 0 0x03 (stringToBytes name)

/-- midi.ts `addTempo` (`Math.round(60000000 / bpm)`, three big-endian
bytes; pipeline tempos are positive). -/
def TrackBuilder.addTempo (st : TrackBuilder) (bpm : ℤ) : TrackBuilder :=
  let mspb := (jsRound (60000000 / (bpm : ℚ))).toNat
  st.addMeta 0 0x51 [mspb / 2 ^ 16 % 256, mspb / 2 ^ 8 % 256, mspb % 256]

/-- midi.ts `addTimeSignature` (`Math.log2(denominator)`; the pipeline's
denominator is always 4, a power of two, where `Nat.log2` is exact). -/
def TrackBuilder.addTimeSignature (st : TrackBuilder) (numerator denominator : ℤ) :
    TrackBuilder :=
  st.addMeta 0 0x58 [numerator.toNat, Nat.log2 denominator.toNat, 24, 8]

/-- midi.ts `addProgramChange`. -/
def TrackBuilder.addProgramChange (st : TrackBuilder) (channel program : ℕ) :
    TrackBuilder :=
  st.addEvent 0 [0xC0 ||| (channel &&& 0x0F), program &&& 0x7F]

/-- The note-on velocity byte: `Math.min(127, Math.max(1,
Math.round(velocity * 127)))`. -/
def midiVelocity (velocity : ℚ) : ℤ := min 127 (max 1 (jsRound (velocity * 127)))

/-- midi.ts `addNoteOn`. -/
def TrackBuilder.addNoteOn (st : TrackBuilder) (tick : ℤ) (channel note : ℕ)
    (velocity : ℚ) : TrackBuilder :=
  st.addEvent tick [0x90 ||| (channel &&& 0x0F), note &&& 0x7F,
    (midiVelocity velocity).toNat]

/-- midi.ts `addNoteOff`. -/
def TrackBuilder.addNoteOff (st : TrackBuilder) (tick : ℤ) (channel note : ℕ) :
    TrackBuilder :=
  st.addEvent tick [0x80 ||| (channel &&& 0x0F), note &&& 0x7F, 0]

/-- midi.ts `MidiTrackBuilder.build`: append the end-of-track meta event at
the final tick, then wrap in an `MTrk` chunk. -/
def TrackBuilder.build (st : TrackBuilder) : List ℕ :=
  let withEnd := st.addMeta st.lastTick 0x2F []
  TRACK_CHUNK ++ int32ToBytes withEnd.events.length ++ withEnd.events

/-- `generate`'s `secondsToTicks` closure. -/
def secondsToTicks (tempo : ℤ) (seconds : ℚ) : ℤ :=
  jsRound (seconds * ((tempo : ℚ) / 60) * TICKS_PER_BEAT)

/-- Stable insertion into a list sorted by ascending start time (the element
being inserted originates earlier in the input than the list's elements, so
it goes before any equal start time). -/
def insertByTime (n : MusicNote) : List MusicNote → List MusicNote
  | [] => [n]
  | m :: ms => if m.time < n.time then m :: insertByTime n ms else n :: m :: ms

/-- `[...track.notes].sort((a, b) => a.time - b.time)` — JavaScript's sort
is stable and this comparator is consistent, so the result is the unique
stable ascending-by-time reordering. -/
def sortByTime : List MusicNote → List MusicNote
  | [] => []
  | n :: ns => insertByTime n (sortByTime ns)

/-- The body of `generate`'s per-note loop: skip the note entirely when its
computed pitch is out of range, otherwise emit note-on and note-off. -/
def processNote (tempo : ℤ) (channel : ℕ) (st : TrackBuilder)
    (note : MusicNote) : TrackBuilder :=
  let midiNote := noteStringToMidi note.note
  if 127 < midiNote then st
  else
    let startTick := secondsToTicks tempo note.time
    let durationTicks := DURATION_TICKS note.duration
    ((st.addNoteOn startTick channel midiNote note.velocity).addNoteOff
      (startTick + durationTicks) channel midiNote)

/-- The ASCII filter `name.replace(/[^\x20-\x7E]/g, '')`. -/
def filterAscii (s : String) : String :=
  ⟨s.data.filter (fun c => 0x20 ≤ c.toNat ∧ c.toNat ≤ 0x7E)⟩

/-- One instrument track chunk of `generate`. -/
def instrumentTrackChunk (tempo : ℤ) (track : MusicTrack) : List ℕ :=
  let channel := channelMap track.instrument
  let st0 : TrackBuilder := { events := [], lastTick := 0 }
  let st1 := st0.addTrackName (filterAscii track.name)
  let st2 :=
    if channel ≠ 9 then st1.addProgramChange channel (INSTRUMENT_PROGRAMS track.instrument)
    else st1
  let st3 := (sortByTime track.notes).foldl (processNote tempo channel) st2
  st3.build

/-- The metadata/tempo track (track 0) of `generate`. -/
def tempoTrackChunk (c : MusicComposition) : List ℕ :=
  let st0 : TrackBuilder := { events := [], lastTick := 0 }
  let st1 := st0.addTrackName c.title
  let st2 := st1.addTempo c.tempo
  let st3 := st2.addTimeSignature c.timeSignature.1 c.timeSignature.2
  let st4 := st3.addMeta 0 0x01 (stringToBytes
    ("Generated by CodeSonify | " ++ c.metadata.sourceLanguage.str ++
      " | Complexity: " ++ toString c.metadata.complexity ++ "/100"))
  st4.build

/-- The `tracks` array of `generate`: the tempo track followed by one chunk
per composition track. -/
def midiTracks (c : MusicComposition) : List (List ℕ) :=
  tempoTrackChunk c :: c.tracks.map (instrumentTrackChunk c.tempo)

/-- midi.ts `MidiGenerator.generate`: header chunk then all track chunks. -/
def generate (c : MusicComposition) : List ℕ :=
  let tracks := midiTracks c
  HEADER_CHUNK ++ int32ToBytes 6 ++ int16ToBytes 1 ++
    int16ToBytes tracks.length ++ int16ToBytes TICKS_PER_BEAT ++ tracks.flatten

end MidiGenerator

/-! ## diff.ts — DiffSonifier -/

inductive DiffLineType where
  | added | removed | context | header
deriving DecidableEq, Repr

structure DiffLine where
  type : DiffLineType
  content : String
  lineNumber : ℕ
deriving DecidableEq, Repr

structure DiffAnalysis where
  addedLines : ℕ
  removedLines : ℕ
  contextLines : ℕ
  totalChanges : ℕ
  changeRatio : ℚ
  files : List String
deriving DecidableEq, Repr

namespace DiffSonifier

/-- `str.replace(pat, '')` for a plain-string pattern: remove the first
occurrence, if any. -/
def replaceOnce : List Char → List Char → List Char
  | [], _ => []
  | c :: t, pat =>
    if pat.isPrefixOf (c :: t) then (c :: t).drop pat.length
    else c :: replaceOnce t pat

/-- Classify one diff line by its leading characters (`parseDiff`'s loop
body). -/
def classifyDiffLine (l : List Char) (lineNum : ℕ) : DiffLine :=
  if "+++".data.isPrefixOf l ∨ "---".data.isPrefixOf l ∨
      "diff ".data.isPrefixOf l ∨ "index ".data.isPrefixOf l then
    { type := .header, content := ⟨l⟩, lineNumber := lineNum }
  else if "@@".data.isPrefixOf l then
    { type := .header, content := ⟨l⟩, lineNumber := lineNum }
  else if "+".data.isPrefixOf l then
    { type := .added, content := ⟨l.drop 1⟩, lineNumber := lineNum }
  else if "-".data.isPrefixOf l then
    { type := .removed, content := ⟨l.drop 1⟩, lineNumber := lineNum }
  else
    { type := .context, content := ⟨l⟩, lineNumber := lineNum }

/-- The `lineNum++` loop of `parseDiff`. -/
def parseDiffLines : List (List Char) → ℕ → List DiffLine
  | [], _ => []
  | l :: ls, lineNum => classifyDiffLine l (lineNum + 1) :: parseDiffLines ls (lineNum + 1)

/-- diff.ts `parseDiff`. -/
def parseDiff (diffText : String) : List DiffLine :=
  parseDiffLines (splitOn '\n' diffText.data) 0

/-- diff.ts `analyzeDiff`. -/
def analyzeDiff (diffLines : List DiffLine) : DiffAnalysis :=
  let addedLines := (diffLines.filter (fun l => l.type = .added)).length
  let removedLines := (diffLines.filter (fun l => l.type = .removed)).length
  let contextLines := (diffLines.filter (fun l => l.type = .context)).length
  let totalChanges := addedLines + removedLines
  let files := diffLines.filterMap (fun l =>
    if "+++ b/".data.isPrefixOf l.content.data ∨
        "+++ ".data.isPrefixOf l.content.data then
      let filename : List Char :=
        jsTrim (replaceOnce (replaceOnce l.content.data "+++ b/".data) "+++ ".data)
      if filename ≠ [] ∧ filename ≠ "/dev/null".data then some (⟨filename⟩ : String)
      else none
    else none)
  { addedLines := addedLines, removedLines := removedLines,
    contextLines := contextLines, totalChanges := totalChanges,
    changeRatio :=
      if 0 < totalChanges then (addedLines : ℚ) / totalChanges else 1/2,
    files := files }

/-- diff.ts `mapDiffToNotes`'s per-line note generation (the `scale` and
`tempo` parameters of the source method are consumed only through the
already-computed `tempoMultiplier`, passed here as `mult`; `keyIndex` is
`NOTE_NAMES.indexOf(key) || 0`, and every key passed is present in
`NOTE_NAMES`, so the `|| 0` re-maps 0 to 0). -/
def mapDiffLine (key : NoteName) (mult : ℚ) (line : DiffLine) (t : ℚ) :
    List MusicNote × ℚ :=
  let keyIndex := noteNameIndex key
  match line.type with
  | .header =>
    ([{ note := noteStr key 5, duration := .n16, velocity := 1/5,
        time := t, instrument := .ambient }],
     t + (1/10) * mult)
  | .context =>
    let pentatonicScale := SCALES .pentatonic
    let scaleIdx := line.lineNumber % pentatonicScale.length
    let semitone := (keyIndex + scaleGet pentatonicScale scaleIdx) % 12
    ([{ note := noteStr (noteAt semitone) 3, duration := .n4, velocity := 3/20,
        time := t, instrument := .ambient }],
     t + (3/20) * mult)
  | .added =>
    let majorScale := SCALES .major
    let contentLength := (jsTrim line.content.data).length
    let phraseCount := min 5 (max 1 (contentLength / 10 + 1))
    let (phrase, t1) := MusicMapper.emitFold
      (fun i t =>
        let scaleIdx := i % majorScale.length
        let semitone := (keyIndex + scaleGet majorScale scaleIdx) % 12
        let octave := 4 + i / majorScale.length
        ([{ note := noteStr (noteAt semitone) (min 6 octave), duration := .n8,
            velocity := 3/5 + i * (1/20), time := t, instrument := .melody }],
         t + (3/25) * mult))
      (List.range phraseCount) t
    let chord : List MusicNote :=
      if 20 < contentLength then
        ([0, 4, 7] : List ℕ).map (fun interval =>
          { note := noteStr (noteAt ((keyIndex + interval) % 12)) 4,
            duration := .n4, velocity := 7/20, time := t1,
            instrument := .harmony })
      else []
    (phrase ++ chord, t1 + (1/10) * mult)
  | .removed =>
    let minorScale := SCALES .minor
    let contentLength := (jsTrim line.content.data).length
    let phraseCount := min 4 (max 1 (contentLength / 12 + 1))
    let (phrase, t1) := MusicMapper.emitFold
      (fun i t =>
        let scaleIdx := (minorScale.length - 1 - i) % minorScale.length
        let semitone := (keyIndex + scaleGet minorScale scaleIdx) % 12
        let octave := 4 - i / minorScale.length
        ([{ note := noteStr (noteAt semitone) (max 2 octave), duration := .n8,
            velocity := 9/20 - i * (1/20), time := t, instrument := .bass }],
         t + (3/20) * mult))
      (List.range phraseCount) t
    let hit : MusicNote :=
      { note := noteStr key 2, duration := .n16, velocity := 3/10,
        time := t1, instrument := .percussion }
    (phrase ++ [hit], t1 + (2/25) * mult)

/-- diff.ts `mapDiffToNotes` (cursor starts at 0; `tempoMultiplier =
120 / tempo`). -/
def mapDiffToNotes (diffLines : List DiffLine) (key : NoteName) (tempo : ℤ) :
    List MusicNote × ℚ :=
  let mult := 120 / (tempo : ℚ)
  MusicMapper.emitFold (mapDiffLine key mult) diffLines 0

/-- diff.ts `organizeDiffTracks`'s `trackConfigs` table; `dissonance` is not
a key, so the lookup's `|| trackConfigs['ambient']` fallback applies. -/
def diffTrackConfig : InstrumentType → Waveform × ℚ × List TrackEffect
  | .melody => (.triangle, 7/10, [⟨.reverb, [("decay", 2), ("wet", 3/10)]⟩])
  | .bass => (.sine, 1/2, [⟨.filter, [("frequency", 400), ("type", 0)]⟩])
  | .harmony => (.sine, 2/5, [⟨.reverb, [("decay", 3), ("wet", 1/2)]⟩])
  | .percussion => (.square, 2/5, [])
  | .ambient => (.sine, 1/5, [⟨.reverb, [("decay", 5), ("wet", 3/5)]⟩])
  | .dissonance => (.sine, 1/5, [⟨.reverb, [("decay", 5), ("wet", 3/5)]⟩])

/-- diff.ts `organizeDiffTracks`'s `trackNames` table; `dissonance` falls
back to the instrument name (`|| instrument`). -/
def diffTrackName : InstrumentType → String
  | .melody => "✨ Additions (Ascending Major)"
  | .bass => "🔻 Deletions (Descending Minor)"
  | .harmony => "🎹 Significant Changes (Chords)"
  | .percussion => "🥁 Change Markers"
  | .ambient => "🌊 Context & Headers"
  | .dissonance => "dissonance"

/-- diff.ts `organizeDiffTracks`. -/
def organizeDiffTracks (notes : List MusicNote) : List MusicTrack :=
  (Composer.groupByInstrument notes).map (fun (instrument, trackNotes) =>
    let config := diffTrackConfig instrument
    { name := diffTrackName instrument, instrument := instrument,
      waveform := config.1, volume := config.2.1, notes := trackNotes,
      effects := config.2.2 })

/-- diff.ts `generateDiffInterpretation`. -/
def generateDiffInterpretation (analysis : DiffAnalysis) (style : MusicStyle) :
    String :=
  let p1 : String :=
    if 4/5 < analysis.changeRatio then
      "A bright, optimistic composition reflecting significant new code additions"
    else if 3/5 < analysis.changeRatio then
      "A mostly uplifting piece with new code dominating the melody"
    else if 2/5 < analysis.changeRatio then
      "A balanced composition reflecting equal parts creation and removal — a refactoring journey"
    else if 1/5 < analysis.changeRatio then
      "A contemplative piece where code cleanup dominates — simplification in progress"
    else
      "A minimalist, descending composition reflecting major code removal — a bold cleanup"
  let p2 : String :=
    toString analysis.addedLines ++ " lines added, " ++
      toString analysis.removedLines ++ " lines removed"
  let p3 : List String :=
    if 0 < analysis.files.length then
      ["across " ++ toString analysis.files.length ++ " file" ++
        (if 1 < analysis.files.length then "s" else "")]
    else []
  let p4 : String := "rendered in " ++ style.str ++ " style"
  String.intercalate ", " ([p1, p2] ++ p3 ++ [p4]) ++ "."

/-- `Math.max(...l)` for a non-empty list (the one call site guards
emptiness). -/
def maxList (l : List ℚ) : ℚ :=
  match l with
  | [] => 0
  | x :: xs => xs.foldl max x

/-- The result of `sonifyDiff` (its human-readable `summary` string is
presentation-only output for the chat layer and is not modelled). -/
structure DiffSonifyResult where
  composition : MusicComposition
  diffAnalysis : DiffAnalysis

/-- diff.ts `sonifyDiff`.  `now` models `new Date().toISOString()`. -/
def sonifyDiff (diffText : String) (style : MusicStyle) (now : String) :
    DiffSonifyResult :=
  let diffLines := parseDiff diffText
  let analysis := analyzeDiff diffLines
  let isMainlyAdding := 3/5 < analysis.changeRatio
  let isMainlyRemoving := analysis.changeRatio < 2/5
  let key : NoteName :=
    if isMainlyAdding then .C else if isMainlyRemoving then .A else .D
  let scale : ScaleType :=
    if isMainlyAdding then .major else if isMainlyRemoving then .minor
    else .dorian
  let tempo : ℤ := min 160 (max 70 (80 + analysis.totalChanges * 2))
  let (notes, _) := mapDiffToNotes diffLines key tempo
  let tracks := organizeDiffTracks notes
  let totalDuration : ℚ :=
    if 0 < notes.length then maxList (notes.map (·.time)) + 1 else 5
  { composition :=
      { title := "CodeSonify: Diff Composition (" ++
          toString analysis.addedLines ++ "+ / " ++
          toString analysis.removedLines ++ "-)"
        tempo := tempo
        timeSignature := (4, 4)
        key := key
        scale := scale
        duration := totalDuration
        tracks := tracks
        metadata :=
          { sourceLanguage := .unknown
            linesAnalyzed := diffLines.length
            complexity := min 100 ((analysis.totalChanges : ℤ) * 3)
            generatedAt := now
            codeHash := Composer.simpleHash diffText
            musicalInterpretation := generateDiffInterpretation analysis style } }
    diffAnalysis := analysis }

end DiffSonifier

/-- Override only the `generatedAt` timestamp of a composition (used to state
determinism of the pipeline modulo the wall clock). -/
def setGeneratedAt (c : MusicComposition) (t : String) : MusicComposition :=
  { c with metadata := { c.metadata with generatedAt := t } }

/-- Definition following the spec's words for claim C5 (not the source):
tempo linearly interpolated over the tempo range `[minBPM, maxBPM]` fixed by
the selected style preset. -/
def specTempoFromComplexity (style : MusicStyle) (complexity : ℚ) : ℤ :=
  let range := (STYLE_PRESETS style).tempoRange
  jsRound (range.1 + complexity / 100 * (range.2 - range.1))

/-- Two notes with distinct start times, for the C10 witness. -/
def earlyNote : MusicNote :=
  { note := "C4", duration := .n4, velocity := 1/2, time := 0,
    instrument := .melody }

def lateNote : MusicNote :=
  { note := "E4", duration := .n4, velocity := 1/2, time := 1,
    instrument := .melody }

def trackWith (notes : List MusicNote) : MusicTrack :=
  { name := "m", instrument := .melody, waveform := .sine, volume := 1/2,
    notes := notes, effects := [] }

/-- A harmony track holding a chord: two notes with the same start time (the
shape `mapConditional` / `mapClass` / `mapError` emit), for the C10 witness. -/
def chordTrack : MusicTrack :=
  { name := "h", instrument := .harmony, waveform := .sine, volume := 1/2,
    notes :=
      [{ note := "C4", duration := .n4, velocity := 1/2, time := 0,
         instrument := .harmony },
       { note := "E4", duration := .n4, velocity := 1/2, time := 0,
         instrument := .harmony }],
    effects := [] }

def compWith (tracks : List MusicTrack) : MusicComposition :=
  { title := "t", tempo := 120, timeSignature := (4, 4), key := .C,
    scale := .major, duration := 2, tracks := tracks,
    metadata :=
      { sourceLanguage := .unknown, linesAnalyzed := 0, complexity := 0,
        generatedAt := "", codeHash := "", musicalInterpretation := "" } }

/-! ## Helper lemmas -/

theorem vlqAux_foldl (v : ℕ) : ∀ acc : List ℕ,
    (vlqAux v acc).foldl (fun acc b => acc * 128 + b % 128) 0 =
    acc.foldl (fun acc b => acc * 128 + b % 128) v := by
  induction v using Nat.strong_induction_on with
  | _ v ih =>
    intro acc
    rw [vlqAux]
    by_cases h : v = 0
    · simp [h]
    · rw [dif_neg h, ih (v / 128) (Nat.div_lt_self (Nat.pos_of_ne_zero h) (by norm_num))]
      have hm : (v % 128 + 128) % 128 = v % 128 := by omega
      have hd : v / 128 * 128 + v % 128 = v := by omega
      simp only [List.foldl_cons, hm, hd]

/-- Round trip for all naturals (the source loop is faithful to base-128
positional representation for every nonnegative value below `2^31`). -/
theorem decode_encode_vlq (v : ℕ) : decodeVLQ (encodeVLQ v) = v := by
  have h := vlqAux_foldl (v / 128) [v % 128]
  simp only [decodeVLQ, encodeVLQ, Int.toNat_natCast, h, List.foldl_cons, List.foldl_nil]
  omega

/-- The encoder never reads `generatedAt`. -/
theorem generate_setGeneratedAt (c : MusicComposition) (t : String) :
    MidiGenerator.generate (setGeneratedAt c t) = MidiGenerator.generate c := rfl

theorem insertNote_flatten_perm (acc : List (InstrumentType × List MusicNote))
    (n : MusicNote) :
    List.Perm (((Composer.insertNote acc n).map (·.2)).flatten)
      (((acc.map (·.2)).flatten) ++ [n]) := by
  induction acc with
  | nil => simp [Composer.insertNote]
  | cons p ps ih =>
    by_cases h : p.1 = n.instrument
    · simp only [Composer.insertNote, if_pos h, List.map_cons, List.flatten_cons,
        List.append_assoc]
      exact List.Perm.append_left p.2 (List.perm_append_comm.trans
        (List.Perm.append_right _ (List.Perm.refl _)))
    · simp only [Composer.insertNote, if_neg h, List.map_cons, List.flatten_cons,
        List.append_assoc]
      exact List.Perm.append_left p.2 ih

theorem groupBy_flatten_perm (l : List MusicNote) :
    ∀ acc, List.Perm ((((l.foldl Composer.insertNote acc).map (·.2)).flatten))
      (((acc.map (·.2)).flatten) ++ l) := by
  induction l with
  | nil => intro acc; simp
  | cons n l ih =>
    intro acc
    have h1 := ih (Composer.insertNote acc n)
    have h2 := (insertNote_flatten_perm acc n).append_right l
    simpa using h1.trans h2

/-- `organizeTracks` only regroups: the notes of all tracks are a permutation
of the input notes. -/
theorem organizeTracks_notes_perm (notes : List MusicNote) :
    List.Perm (((Composer.organizeTracks notes).map (·.notes)).flatten) notes := by
  have heq : (Composer.organizeTracks notes).map (·.notes) =
      (Composer.groupByInstrument notes).map (·.2) := by
    simp only [Composer.organizeTracks, List.map_map]
    rfl
  rw [heq]
  simpa using groupBy_flatten_perm notes []

/-- diff.ts `organizeDiffTracks` likewise only regroups. -/
theorem organizeDiffTracks_notes_perm (notes : List MusicNote) :
    List.Perm (((DiffSonifier.organizeDiffTracks notes).map (·.notes)).flatten) notes := by
  have heq : (DiffSonifier.organizeDiffTracks notes).map (·.notes) =
      (Composer.groupByInstrument notes).map (·.2) := by
    simp only [DiffSonifier.organizeDiffTracks, List.map_map]
    rfl
  rw [heq]
  simpa using groupBy_flatten_perm notes []

theorem foldl_max_init_le (a : ℚ) (l : List ℚ) : a ≤ l.foldl max a := by
  induction l generalizing a with
  | nil => simp
  | cons x xs ih => exact le_trans (le_max_left a x) (ih (max a x))

theorem mem_le_foldl_max {x : ℚ} {l : List ℚ} (a : ℚ) (h : x ∈ l) :
    x ≤ l.foldl max a := by
  induction l generalizing a with
  | nil => cases h
  | cons y ys ih =>
    rcases List.mem_cons.mp h with rfl | h'
    · exact le_trans (le_max_right a x) (foldl_max_init_le _ ys)
    · exact ih _ h'

theorem foldl_max_mem (a : ℚ) (l : List ℚ) :
    l.foldl max a = a ∨ l.foldl max a ∈ l := by
  induction l generalizing a with
  | nil => exact Or.inl rfl
  | cons x xs ih =>
    rcases ih (max a x) with h | h
    · rcases max_choice a x with h' | h'
      · exact Or.inl (by rw [List.foldl_cons, h, h'])
      · exact Or.inr (by rw [List.foldl_cons, h, h']; exact List.mem_cons_self x xs)
    · exact Or.inr (List.mem_cons_of_mem x h)

theorem maxList_mem {l : List ℚ} (h : l ≠ []) : DiffSonifier.maxList l ∈ l := by
  match l with
  | x :: xs =>
    rcases foldl_max_mem x xs with h' | h'
    · rw [DiffSonifier.maxList, h']
      exact List.mem_cons_self x xs
    · rw [DiffSonifier.maxList]
      exact List.mem_cons_of_mem x h'

theorem le_maxList {x : ℚ} {l : List ℚ} (h : x ∈ l) : x ≤ DiffSonifier.maxList l := by
  match l with
  | y :: ys =>
    rw [DiffSonifier.maxList]
    rcases List.mem_cons.mp h with rfl | h'
    · exact foldl_max_init_le x ys
    · exact mem_le_foldl_max y h'

theorem maxList_perm {l₁ l₂ : List ℚ} (hp : List.Perm l₁ l₂) (h : l₁ ≠ []) :
    DiffSonifier.maxList l₁ = DiffSonifier.maxList l₂ := by
  have h₂ : l₂ ≠ [] := fun e => h ((e ▸ hp).eq_nil)
  exact le_antisymm
    (le_maxList (hp.subset (maxList_mem h)))
    (le_maxList (hp.symm.subset (maxList_mem h₂)))

theorem insertByTime_perm (n : MusicNote) (l : List MusicNote) :
    List.Perm (MidiGenerator.insertByTime n l) (n :: l) := by
  induction l with
  | nil => exact List.Perm.refl _
  | cons m ms ih =>
    by_cases h : m.time < n.time
    · simp only [MidiGenerator.insertByTime, if_pos h]
      exact (ih.cons m).trans (List.Perm.swap n m ms)
    · simp only [MidiGenerator.insertByTime, if_neg h]
      exact List.Perm.refl _

theorem sortByTime_perm (l : List MusicNote) :
    List.Perm (MidiGenerator.sortByTime l) l := by
  induction l with
  | nil => exact List.Perm.refl _
  | cons n ns ih => exact (insertByTime_perm n _).trans (ih.cons n)

theorem insertByTime_sorted (n : MusicNote) {l : List MusicNote}
    (h : l.Pairwise (fun a b => a.time ≤ b.time)) :
    (MidiGenerator.insertByTime n l).Pairwise (fun a b => a.time ≤ b.time) := by
  induction l with
  | nil => simp [MidiGenerator.insertByTime]
  | cons m ms ih =>
    rcases List.pairwise_cons.mp h with ⟨hm, hms⟩
    by_cases hlt : m.time < n.time
    · simp only [MidiGenerator.insertByTime, if_pos hlt]
      refine List.pairwise_cons.mpr ⟨?_, ih hms⟩
      intro x hx
      rcases List.mem_cons.mp ((insertByTime_perm n ms).subset hx) with rfl | hx'
      · exact le_of_lt hlt
      · exact hm x hx'
    · simp only [MidiGenerator.insertByTime, if_neg hlt]
      push_neg at hlt
      refine List.pairwise_cons.mpr ⟨?_, h⟩
      intro x hx
      rcases List.mem_cons.mp hx with rfl | hx'
      · exact hlt
      · exact le_trans hlt (hm x hx')

theorem sortByTime_sorted (l : List MusicNote) :
    (MidiGenerator.sortByTime l).Pairwise (fun a b => a.time ≤ b.time) := by
  induction l with
  | nil => simp [MidiGenerator.sortByTime]
  | cons n ns ih => exact insertByTime_sorted n ih

/-- With pairwise-distinct start times, the sorted order is unique: sorting
either of two permutations of the same notes gives the same list. -/
theorem sortByTime_eq_of_perm {l₁ l₂ : List MusicNote} (hp : List.Perm l₁ l₂)
    (hd : l₁.Pairwise (fun a b => a.time ≠ b.time)) :
    MidiGenerator.sortByTime l₁ = MidiGenerator.sortByTime l₂ := by
  have hperm : List.Perm (MidiGenerator.sortByTime l₁) (MidiGenerator.sortByTime l₂) :=
    (sortByTime_perm l₁).trans (hp.trans (sortByTime_perm l₂).symm)
  have hd₁ : (MidiGenerator.sortByTime l₁).Pairwise (fun a b => a.time ≠ b.time) :=
    ((sortByTime_perm l₁).pairwise_iff (fun {a b} h => h.symm)).mpr hd
  have hd₂ : (MidiGenerator.sortByTime l₂).Pairwise (fun a b => a.time ≠ b.time) :=
    (hperm.pairwise_iff (fun {a b} h => h.symm)).mp hd₁
  have hs₁ : (MidiGenerator.sortByTime l₁).Pairwise (fun a b => a.time < b.time) :=
    ((sortByTime_sorted l₁).and hd₁).imp (fun h => lt_of_le_of_ne h.1 h.2)
  have hs₂ : (MidiGenerator.sortByTime l₂).Pairwise (fun a b => a.time < b.time) :=
    ((sortByTime_sorted l₂).and hd₂).imp (fun h => lt_of_le_of_ne h.1 h.2)
  haveI : IsAntisymm MusicNote (fun a b => a.time < b.time) :=
    ⟨fun _ _ h h' => absurd (h.trans h') (lt_irrefl _)⟩
  exact List.eq_of_perm_of_sorted hperm hs₁ hs₂

/-! ## Claims -/

/-- Claim C1, counterexample: the pipeline embeds the wall-clock reading in
`metadata.generatedAt` (`new Date().toISOString()` in `buildComposition`),
so two calls on the same text and style made at different clock readings
yield Composition values that are not byte-identical. -/
theorem c1_counterexample :
    Composer.sonify
        { code := "", language := some .unknown, style := some .classical }
        "2026-01-01T00:00:00.000Z" ≠
      Composer.sonify
        { code := "", language := some .unknown, style := some .classical }
        "2026-01-02T00:00:00.000Z" := by
  intro h
  have h2 : "2026-01-01T00:00:00.000Z" = "2026-01-02T00:00:00.000Z" :=
    congrArg (fun c => c.metadata.generatedAt) h
  exact absurd h2 (by decide)

/-- Claim C1 (amended): with the clock modelled as an explicit input, two
runs of `sonifyCode` on the same text and style agree on the entire
Composition except the `metadata.generatedAt` timestamp, and the encoded
binary (MIDI) output is byte-identical — the encoder never reads the
timestamp. -/
theorem c1_determinism_modulo_timestamp (req : SonifyRequest) (t₁ t₂ : String) :
    MidiGenerator.generate (Composer.sonify req t₁) =
      MidiGenerator.generate (Composer.sonify req t₂) ∧
    Composer.sonify req t₁ = setGeneratedAt (Composer.sonify req t₂) t₁ :=
  ⟨generate_setGeneratedAt (Composer.sonify req t₂) t₁, rfl⟩

/-- Claim C2 (confirmed): decoding inverts `encodeVLQ` on every value below
`2^28`, and the three pinned byte encodings hold. -/
theorem c2_vlq_roundtrip :
    (∀ v : ℕ, v < 2 ^ 28 → decodeVLQ (encodeVLQ (v : ℤ)) = v) ∧
    encodeVLQ 0 = [0x00] ∧ encodeVLQ 127 = [0x7F] ∧
    encodeVLQ 128 = [0x81, 0x00] := by
  refine ⟨fun v _ => decode_encode_vlq v, ?_, ?_, ?_⟩ <;>
    simp [encodeVLQ, vlqAux]

theorem c2_vlq_roundtrip_witness :
    (1000000 : ℕ) < 2 ^ 28 ∧
    decodeVLQ (encodeVLQ ((1000000 : ℕ) : ℤ)) = 1000000 :=
  ⟨by norm_num, c2_vlq_roundtrip.1 1000000 (by norm_num)⟩

/-- Claim C4, counterexample: a Composition produced by the pipeline can
have an empty track list — for the empty input text the analysis yields no
notes, `organizeTracks` returns no tracks, and no metadata/tempo track is
part of the Composition (that track exists only in the encoded MIDI file). -/
theorem c4_counterexample :
    (Composer.sonify
      { code := "", language := some .unknown, style := some .classical }
      "T").tracks = [] := rfl

/-- Claim C4 (amended): the guaranteed metadata/tempo track lives in the
encoded binary, not in the Composition: `generate` always emits
`c.tracks.length + 1` track chunks, hence at least one, even when the code
analysis yields zero notes and `c.tracks` is empty. -/
theorem c4_midi_always_has_tempo_track (c : MusicComposition) :
    0 < (MidiGenerator.midiTracks c).length ∧
    (MidiGenerator.midiTracks c).length = c.tracks.length + 1 := by
  constructor <;> simp [MidiGenerator.midiTracks]

/-- Claim C5, counterexample: for the classical preset at complexity 100 the
source computes `round(70 + 1 * (160 − 70)) = 160` from the mapping config's
fixed `complexityToTempo` range, not `round(80 + 1 * (130 − 80)) = 130` from
the preset's `tempoRange [80, 130]` as the claim states. -/
theorem c5_counterexample :
    (MusicMapper.make .classical).calculateTempo 100 = 160 ∧
    specTempoFromComplexity .classical 100 = 130 ∧
    (MusicMapper.make .classical).calculateTempo 100 ≠
      specTempoFromComplexity .classical 100 := by
  refine ⟨?_, ?_, ?_⟩ <;> with_unfolding_all decide

/-- Claim C5 (amended): for every style preset and complexity, the computed
tempo is `round(70 + (complexity/100) * (160 − 70))` — the interpolation
range is `DEFAULT_CONFIG`'s fixed `[70, 160]`, independent of the selected
style (the presets' `tempoRange` fields are never consulted); for complexity
in `[0, 100]` the tempo lies in `[70, 160]`. -/
theorem c5_tempo_formula (style : MusicStyle) (c : ℚ) :
    (MusicMapper.make style).calculateTempo c =
      jsRound (DEFAULT_CONFIG.tempoMinBPM +
        c / 100 * (DEFAULT_CONFIG.tempoMaxBPM - DEFAULT_CONFIG.tempoMinBPM)) ∧
    (0 ≤ c → c ≤ 100 →
      70 ≤ (MusicMapper.make style).calculateTempo c ∧
        (MusicMapper.make style).calculateTempo c ≤ 160) := by
  constructor
  · rfl
  · intro h0 h100
    have he : (MusicMapper.make style).calculateTempo c =
        Int.floor (70 + c / 100 * 90 + 1/2 : ℚ) := by
      show jsRound (70 + c / 100 * (160 - 70)) = _
      norm_num [jsRound]
    constructor
    · rw [he, Int.le_floor]
      push_cast
      nlinarith
    · rw [he]
      have : Int.floor (70 + c / 100 * 90 + 1/2 : ℚ) < 161 :=
        Int.floor_lt.mpr (by push_cast; nlinarith)
      omega

theorem c5_tempo_formula_witness :
    (0 : ℚ) ≤ 50 ∧ (50 : ℚ) ≤ 100 ∧
    (MusicMapper.make .classical).calculateTempo 50 =
      jsRound (DEFAULT_CONFIG.tempoMinBPM +
        50 / 100 * (DEFAULT_CONFIG.tempoMaxBPM - DEFAULT_CONFIG.tempoMinBPM)) ∧
    70 ≤ (MusicMapper.make .classical).calculateTempo 50 ∧
    (MusicMapper.make .classical).calculateTempo 50 ≤ 160 :=
  ⟨by norm_num, by norm_num, (c5_tempo_formula .classical 50).1,
   ((c5_tempo_formula .classical 50).2 (by norm_num) (by norm_num)).1,
   ((c5_tempo_formula .classical 50).2 (by norm_num) (by norm_num)).2⟩

/-- Claim C6, counterexample: analyzing the empty string does not yield zero
tokens and all-zero metrics — `"".split('\n')` is `[""]`, whose single
empty line emits one `whitespace` token and counts as one (empty) line. -/
theorem c6_counterexample :
    (CodeParser.analyze "" none).tokens ≠ [] ∧
    (CodeParser.analyze "" none).metrics.totalLines ≠ 0 := by
  constructor <;> decide

/-- Claim C6 (amended): analysis is total by construction (a Lean function;
the source never throws), and for the empty string — with or without a
language hint — it returns exactly one `whitespace` token, metrics that are
all zero except `totalLines = 1` and `emptyLines = 1`, complexity 0, and no
structures. -/
theorem c6_analyze_empty (language : Option CodeLanguage) :
    (CodeParser.analyze "" language).tokens =
      [{ type := .whitespace, value := "", line := 1, column := 0, depth := 0 }] ∧
    (CodeParser.analyze "" language).metrics =
      { totalLines := 1, codeLines := 0, commentLines := 0, emptyLines := 1,
        functionCount := 0, loopCount := 0, conditionalCount := 0,
        variableCount := 0, maxNestingDepth := 0, complexity := 0,
        classCount := 0, importCount := 0, errorCount := 0 } ∧
    (CodeParser.analyze "" language).structures = [] :=
  ⟨rfl, by with_unfolding_all rfl, rfl⟩

theorem duration_of_perm {allNotes notes : List MusicNote}
    (hp : List.Perm allNotes notes) :
    (if 0 < allNotes.length then
      DiffSonifier.maxList (allNotes.map (·.time)) + 1 else 5 : ℚ) =
    (if 0 < notes.length then
      DiffSonifier.maxList (notes.map (·.time)) + 1 else 5) := by
  rcases hn : notes with _ | ⟨n, ns⟩
  · rw [hn] at hp
    rw [hp.eq_nil]
  · have hlen : allNotes.length = notes.length := hp.length_eq
    have h1 : 0 < allNotes.length := by rw [hlen, hn]; simp
    have h2 : 0 < notes.length := by rw [hn]; simp
    rw [← hn, if_pos h1, if_pos h2]
    have hne : allNotes.map (·.time) ≠ [] := by
      intro e
      have ha : allNotes = [] := by
        cases allNotes with
        | nil => rfl
        | cons a as => simp at e
      rw [ha] at h1
      simp at h1
    rw [maxList_perm (hp.map (·.time)) hne]

/-- The diff path's duration formula transfers from the internal note list to
the notes stored in the composition's tracks. -/
theorem tracks_duration_eq (notes : List MusicNote) :
    (if 0 < notes.length then
      DiffSonifier.maxList (notes.map (·.time)) + 1 else 5 : ℚ) =
    (if 0 < (((DiffSonifier.organizeDiffTracks notes).map (·.notes)).flatten).length then
      DiffSonifier.maxList
        ((((DiffSonifier.organizeDiffTracks notes).map (·.notes)).flatten).map (·.time)) + 1
     else 5) :=
  (duration_of_perm (organizeDiffTracks_notes_perm notes)).symm

/-- Claim C3, counterexample: on the code path the duration is the mapper's
final time cursor, not `max(startTime) + 1` nor the 5-second fallback — for
the empty input the composition holds no notes yet its duration is the
cursor value 9/70 s, not 5 s. -/
theorem c3_counterexample :
    (((Composer.sonify
        { code := "", language := some .unknown, style := some .classical }
        "T").tracks.map (·.notes)).flatten = []) ∧
    (Composer.sonify
        { code := "", language := some .unknown, style := some .classical }
        "T").duration ≠ 5 := by
  constructor
  · rfl
  · with_unfolding_all decide

/-- Claim C3 (amended): the `max(note.startTime) + 1` / 5-second-fallback
formula holds on the diff path (`sonifyDiff`), over all notes stored in the
composition's tracks; on the code path (`Composer.sonify`) the duration is
instead the mapper's final `currentTime` cursor after consuming all tokens
(`getTotalDuration`). -/
theorem c3_duration_formulas :
    (∀ (diffText : String) (style : MusicStyle) (now : String),
      (DiffSonifier.sonifyDiff diffText style now).composition.duration =
        (if 0 < ((((DiffSonifier.sonifyDiff diffText style now).composition.tracks.map
              (·.notes)).flatten).length) then
          DiffSonifier.maxList
            (((((DiffSonifier.sonifyDiff diffText style now).composition.tracks.map
              (·.notes)).flatten).map (·.time))) + 1
        else 5)) ∧
    (∀ (req : SonifyRequest) (now : String),
      (Composer.sonify req now).duration =
        ((MusicMapper.make (req.style.getD .classical)).mapToNotes
          (CodeParser.analyze req.code req.language)).2) := by
  constructor
  · intro diffText style now
    exact tracks_duration_eq _
  · intro req now
    rfl

theorem keywordLookup_ne_comment {w : List Char} {t : TokenType}
    (h : CodeParser.keywordLookup w = some t) : t ≠ .comment := by
  unfold CodeParser.keywordLookup at h
  rcases Option.map_eq_some'.mp h with ⟨p, hfind, hval⟩
  have hmem : p ∈ CodeParser.LANGUAGE_KEYWORDS := List.mem_of_find?_eq_some hfind
  have hall : ∀ q ∈ CodeParser.LANGUAGE_KEYWORDS, q.2 ≠ TokenType.comment := by decide
  rw [← hval]
  exact hall p hmem

theorem classifyWord_ne_comment (w line : List Char) :
    CodeParser.classifyWord w line ≠ .comment := by
  rcases w with _ | ⟨c, cs⟩
  · simp [CodeParser.classifyWord]
  · simp only [CodeParser.classifyWord]
    rcases hk : CodeParser.keywordLookup (c :: cs) with _ | t
    · simp only [hk]
      split_ifs <;> decide
    · simp only [hk]
      split_ifs <;> first | decide | exact keywordLookup_ne_comment hk

theorem countType_append (a b : List CodeToken) (ty : TokenType) :
    CodeParser.countType (a ++ b) ty =
      CodeParser.countType a ty + CodeParser.countType b ty := by
  simp [CodeParser.countType]

theorem tokenizeWords_no_comment (line : List Char) (lineNo depth : ℕ) :
    ∀ (ws : List (List Char)) (col : ℕ),
      CodeParser.countType (CodeParser.tokenizeWords line lineNo depth ws col)
        .comment = 0 := by
  intro ws
  induction ws with
  | nil => intro col; rfl
  | cons w rest ih =>
    intro col
    simp only [CodeParser.tokenizeWords, CodeParser.countType, List.filter_cons]
    rw [if_neg (by simpa using classifyWord_ne_comment w line)]
    exact ih (col + w.length + 1)

theorem tokenizeLine_comment_le (line : List Char) (lineNo depth : ℕ) :
    CodeParser.countType (CodeParser.tokenizeLine line lineNo depth).1 .comment ≤
      (if (jsTrim line).isEmpty then 0 else 1) := by
  by_cases h1 : (jsTrim line).isEmpty
  · have ht : (CodeParser.tokenizeLine line lineNo depth).1 =
        [{ type := .whitespace, value := "", line := lineNo, column := 0,
           depth := depth }] := by
      unfold CodeParser.tokenizeLine
      rw [if_pos h1]
    rw [ht, if_pos h1]
    simp [CodeParser.countType]
  · rw [if_neg h1]
    by_cases h2 : CodeParser.isCommentLine (jsTrim line)
    · have ht : (CodeParser.tokenizeLine line lineNo depth).1 =
          [{ type := .comment, value := ⟨jsTrim line⟩, line := lineNo,
             column := CodeParser.indexOfChar line ((jsTrim line).headD ' '),
             depth := depth }] := by
        unfold CodeParser.tokenizeLine
        rw [if_neg h1, if_pos h2]
      rw [ht]
      simp [CodeParser.countType]
    · have ht : (CodeParser.tokenizeLine line lineNo depth).1 =
          CodeParser.tokenizeWords line lineNo depth
            (CodeParser.splitWords [] (jsTrim line))
            (line.length - (line.dropWhile isJsSpace).length) := by
        unfold CodeParser.tokenizeLine
        rw [if_neg h1, if_neg h2]
      rw [ht, tokenizeWords_no_comment]
      omega

theorem tokenizeLines_comment_bound (ls : List (List Char)) :
    ∀ (lineNo depth : ℕ),
      CodeParser.countType (CodeParser.tokenizeLines ls lineNo depth) .comment +
        (ls.filter (fun l => (jsTrim l).isEmpty)).length ≤ ls.length := by
  induction ls with
  | nil => intro lineNo depth; simp [CodeParser.tokenizeLines, CodeParser.countType]
  | cons l rest ih =>
    intro lineNo depth
    have hline := tokenizeLine_comment_le l lineNo depth
    rcases hL : CodeParser.tokenizeLine l lineNo depth with ⟨ts, depth'⟩
    rw [hL] at hline
    dsimp only at hline
    have hrest := ih (lineNo + 1) depth'
    have hsplit : CodeParser.tokenizeLines (l :: rest) lineNo depth =
        ts ++ CodeParser.tokenizeLines rest (lineNo + 1) depth' := by
      simp only [CodeParser.tokenizeLines]
      rw [hL]
    rw [hsplit, countType_append, List.filter_cons]
    by_cases he : (jsTrim l).isEmpty
    · rw [if_pos he] at hline
      rw [if_pos (by simpa using he)]
      simp only [List.length_cons]
      omega
    · rw [if_neg he] at hline
      rw [if_neg (by simpa using he)]
      simp only [List.length_cons]
      omega

theorem codeLines_nonneg (code : String) (language : Option CodeLanguage) :
    0 ≤ (CodeParser.analyze code language).metrics.codeLines := by
  have hd : (CodeParser.analyze code language).metrics.codeLines =
      (((splitOn '\n' code.data).length : ℤ) -
        ((splitOn '\n' code.data).filter (fun l => (jsTrim l).isEmpty)).length) -
        CodeParser.countType (CodeParser.tokenize code) .comment := rfl
  have hb := tokenizeLines_comment_bound (splitOn '\n' code.data) 1 0
  rw [hd]
  have : CodeParser.countType (CodeParser.tokenize code) .comment =
      CodeParser.countType
        (CodeParser.tokenizeLines (splitOn '\n' code.data) 1 0) .comment := rfl
  rw [this]
  omega

/-- Claim C7 (confirmed): `metrics.complexity` is the rounded clamp-to-100 of
the sum of the four independently capped scores (nesting ≤ 30, branching
≤ 30, size ≤ 20, functions ≤ 20), and lies in `[0, 100]` for every input. -/
theorem c7_complexity_in_range (code : String) (language : Option CodeLanguage) :
    (CodeParser.analyze code language).metrics.complexity =
      jsRound (min 100
        (CodeParser.nestingScore (CodeParser.tokenize code) +
         CodeParser.branchScore (CodeParser.tokenize code) +
         CodeParser.sizeScore ((CodeParser.analyze code language).metrics.codeLines) +
         CodeParser.functionScore (CodeParser.tokenize code))) ∧
    0 ≤ (CodeParser.analyze code language).metrics.complexity ∧
    (CodeParser.analyze code language).metrics.complexity ≤ 100 := by
  have hcode := codeLines_nonneg code language
  have h1 : (0:ℚ) ≤ CodeParser.nestingScore (CodeParser.tokenize code) := by
    unfold CodeParser.nestingScore
    exact le_min (by positivity) (by norm_num)
  have h2 : (0:ℚ) ≤ CodeParser.branchScore (CodeParser.tokenize code) := by
    unfold CodeParser.branchScore
    exact le_min (by positivity) (by norm_num)
  have h3 : (0:ℚ) ≤ CodeParser.sizeScore
      ((CodeParser.analyze code language).metrics.codeLines) := by
    unfold CodeParser.sizeScore
    refine le_min (mul_nonneg ?_ (by norm_num)) (by norm_num)
    exact_mod_cast hcode
  have h4 : (0:ℚ) ≤ CodeParser.functionScore (CodeParser.tokenize code) := by
    unfold CodeParser.functionScore
    exact le_min (by positivity) (by norm_num)
  have hS0 : (0:ℚ) ≤ CodeParser.nestingScore (CodeParser.tokenize code) +
      CodeParser.branchScore (CodeParser.tokenize code) +
      CodeParser.sizeScore ((CodeParser.analyze code language).metrics.codeLines) +
      CodeParser.functionScore (CodeParser.tokenize code) := by linarith
  have hmin0 : (0:ℚ) ≤ min 100
      (CodeParser.nestingScore (CodeParser.tokenize code) +
       CodeParser.branchScore (CodeParser.tokenize code) +
       CodeParser.sizeScore ((CodeParser.analyze code language).metrics.codeLines) +
       CodeParser.functionScore (CodeParser.tokenize code)) :=
    le_min (by norm_num) hS0
  have hmin100 : min 100
      (CodeParser.nestingScore (CodeParser.tokenize code) +
       CodeParser.branchScore (CodeParser.tokenize code) +
       CodeParser.sizeScore ((CodeParser.analyze code language).metrics.codeLines) +
       CodeParser.functionScore (CodeParser.tokenize code)) ≤ 100 :=
    min_le_left _ _
  have hfirst : (CodeParser.analyze code language).metrics.complexity =
      jsRound (min 100
        (CodeParser.nestingScore (CodeParser.tokenize code) +
         CodeParser.branchScore (CodeParser.tokenize code) +
         CodeParser.sizeScore ((CodeParser.analyze code language).metrics.codeLines) +
         CodeParser.functionScore (CodeParser.tokenize code))) := rfl
  refine ⟨hfirst, ?_, ?_⟩
  · rw [hfirst]
    unfold jsRound
    exact Int.le_floor.mpr (by push_cast; linarith)
  · rw [hfirst]
    unfold jsRound
    have hf := Int.floor_lt.mpr
      (show (min 100
        (CodeParser.nestingScore (CodeParser.tokenize code) +
         CodeParser.branchScore (CodeParser.tokenize code) +
         CodeParser.sizeScore ((CodeParser.analyze code language).metrics.codeLines) +
         CodeParser.functionScore (CodeParser.tokenize code)) + 1/2 : ℚ) <
        ((101:ℤ) : ℚ) by push_cast; linarith)
    omega

/-- Claim C8 (confirmed): `changeRatio` is `added / (added + removed)` when
there are changes and `1/2` when there are none; on the pinned scenario diff
the stats are `addedLines = 1`, `removedLines = 1`, `changeRatio = 1/2`, and
`sonifyDiff` selects the middle D-dorian mode, not the bright major or dark
minor extreme. -/
theorem c8_change_ratio_and_scenario :
    (∀ dls : List DiffLine,
      (0 < (DiffSonifier.analyzeDiff dls).totalChanges →
        (DiffSonifier.analyzeDiff dls).changeRatio =
          ((DiffSonifier.analyzeDiff dls).addedLines : ℚ) /
            (((DiffSonifier.analyzeDiff dls).addedLines : ℚ) +
              ((DiffSonifier.analyzeDiff dls).removedLines : ℚ))) ∧
      ((DiffSonifier.analyzeDiff dls).totalChanges = 0 →
        (DiffSonifier.analyzeDiff dls).changeRatio = 1/2)) ∧
    (DiffSonifier.analyzeDiff (DiffSonifier.parseDiff
      "--- a\n+++ b\n@@ -1 +1 @@\n+hello\n-world\n")).addedLines = 1 ∧
    (DiffSonifier.analyzeDiff (DiffSonifier.parseDiff
      "--- a\n+++ b\n@@ -1 +1 @@\n+hello\n-world\n")).removedLines = 1 ∧
    (DiffSonifier.analyzeDiff (DiffSonifier.parseDiff
      "--- a\n+++ b\n@@ -1 +1 @@\n+hello\n-world\n")).changeRatio = 1/2 ∧
    (DiffSonifier.sonifyDiff "--- a\n+++ b\n@@ -1 +1 @@\n+hello\n-world\n"
      .classical "T").composition.key = .D ∧
    (DiffSonifier.sonifyDiff "--- a\n+++ b\n@@ -1 +1 @@\n+hello\n-world\n"
      .classical "T").composition.scale = .dorian := by
  refine ⟨?_, ?_, ?_, ?_, ?_, ?_⟩
  · intro dls
    have hratio : (DiffSonifier.analyzeDiff dls).changeRatio =
        if 0 < (DiffSonifier.analyzeDiff dls).totalChanges then
          ((DiffSonifier.analyzeDiff dls).addedLines : ℚ) /
            ((DiffSonifier.analyzeDiff dls).totalChanges : ℚ)
        else 1/2 := rfl
    have htotal : (DiffSonifier.analyzeDiff dls).totalChanges =
        (DiffSonifier.analyzeDiff dls).addedLines +
          (DiffSonifier.analyzeDiff dls).removedLines := rfl
    constructor
    · intro h
      rw [hratio, if_pos h, htotal]
      push_cast
      ring
    · intro h
      rw [hratio, if_neg (by omega)]
  · decide
  · decide
  · with_unfolding_all decide
  · with_unfolding_all decide
  · with_unfolding_all decide

theorem c8_change_ratio_witness :
    0 < (DiffSonifier.analyzeDiff (DiffSonifier.parseDiff
      "--- a\n+++ b\n@@ -1 +1 @@\n+hello\n-world\n")).totalChanges ∧
    (DiffSonifier.analyzeDiff (DiffSonifier.parseDiff
      "--- a\n+++ b\n@@ -1 +1 @@\n+hello\n-world\n")).changeRatio =
      ((DiffSonifier.analyzeDiff (DiffSonifier.parseDiff
        "--- a\n+++ b\n@@ -1 +1 @@\n+hello\n-world\n")).addedLines : ℚ) /
        (((DiffSonifier.analyzeDiff (DiffSonifier.parseDiff
          "--- a\n+++ b\n@@ -1 +1 @@\n+hello\n-world\n")).addedLines : ℚ) +
          ((DiffSonifier.analyzeDiff (DiffSonifier.parseDiff
            "--- a\n+++ b\n@@ -1 +1 @@\n+hello\n-world\n")).removedLines : ℚ)) :=
  ⟨by decide,
   (c8_change_ratio_and_scenario.1 (DiffSonifier.parseDiff
     "--- a\n+++ b\n@@ -1 +1 @@\n+hello\n-world\n")).1 (by decide)⟩

/-- Claim C9 (confirmed): every emitted note-on velocity byte lies in
`[1, 127]` (never 0); a note whose computed pitch exceeds 127 is skipped
entirely (no note-on and no note-off emitted; the source's `midiNote < 0`
branch is unreachable since the computed pitch is non-negative); an
in-range note appends exactly its note-on (with the clamped velocity byte)
and note-off events. -/
theorem c9_velocity_range_and_pitch_skip :
    (∀ v : ℚ, 1 ≤ MidiGenerator.midiVelocity v ∧
      MidiGenerator.midiVelocity v ≤ 127) ∧
    (∀ (tempo : ℤ) (channel : ℕ) (st : MidiGenerator.TrackBuilder)
        (note : MusicNote),
      127 < MidiGenerator.noteStringToMidi note.note →
        MidiGenerator.processNote tempo channel st note = st) ∧
    (∀ (tempo : ℤ) (channel : ℕ) (st : MidiGenerator.TrackBuilder)
        (note : MusicNote),
      MidiGenerator.noteStringToMidi note.note ≤ 127 →
        (MidiGenerator.processNote tempo channel st note).events =
          st.events ++
          encodeVLQ (max 0 (MidiGenerator.secondsToTicks tempo note.time -
            st.lastTick)) ++
          [0x90 ||| (channel &&& 0x0F),
            MidiGenerator.noteStringToMidi note.note &&& 0x7F,
            (MidiGenerator.midiVelocity note.velocity).toNat] ++
          encodeVLQ ((MidiGenerator.DURATION_TICKS note.duration : ℤ)) ++
          [0x80 ||| (channel &&& 0x0F),
            MidiGenerator.noteStringToMidi note.note &&& 0x7F, 0]) := by
  refine ⟨?_, ?_, ?_⟩
  · intro v
    unfold MidiGenerator.midiVelocity
    constructor
    · exact le_min (by norm_num) (le_max_left 1 _)
    · exact min_le_left _ _
  · intro tempo channel st note h
    unfold MidiGenerator.processNote
    rw [if_pos h]
  · intro tempo channel st note h
    unfold MidiGenerator.processNote
    rw [if_neg (not_lt.mpr h)]
    show (MidiGenerator.TrackBuilder.addEvent _ _ _).events = _
    unfold MidiGenerator.TrackBuilder.addNoteOn MidiGenerator.TrackBuilder.addEvent
    dsimp only
    have hdelta : max 0 (MidiGenerator.secondsToTicks tempo note.time +
        (MidiGenerator.DURATION_TICKS note.duration : ℤ) -
        MidiGenerator.secondsToTicks tempo note.time) =
        (MidiGenerator.DURATION_TICKS note.duration : ℤ) := by
      rw [max_eq_right]
      · ring
      · have := Int.natCast_nonneg (MidiGenerator.DURATION_TICKS note.duration)
        omega
    rw [hdelta]

theorem c9_velocity_range_and_pitch_skip_witness :
    (1 ≤ MidiGenerator.midiVelocity (1/2) ∧
      MidiGenerator.midiVelocity (1/2) ≤ 127) ∧
    127 < MidiGenerator.noteStringToMidi "C10" ∧
    MidiGenerator.processNote 120 0 { events := [], lastTick := 0 }
      { note := "C10", duration := .n4, velocity := 1/2, time := 0,
        instrument := .melody } = { events := [], lastTick := 0 } :=
  ⟨c9_velocity_range_and_pitch_skip.1 (1/2), by decide,
   c9_velocity_range_and_pitch_skip.2.1 120 0 { events := [], lastTick := 0 }
     { note := "C10", duration := .n4, velocity := 1/2, time := 0,
       instrument := .melody } (by decide)⟩

theorem instrumentChunk_map_eq (tempo : ℤ) {ts ts' : List MusicTrack}
    (h : List.Forall₂ (fun t t' =>
      t' = { t with notes := t'.notes } ∧ List.Perm t.notes t'.notes ∧
      (t'.notes = t.notes ∨
        t.notes.Pairwise (fun a b => a.time ≠ b.time))) ts ts') :
    ts'.map (MidiGenerator.instrumentTrackChunk tempo) =
      ts.map (MidiGenerator.instrumentTrackChunk tempo) := by
  induction h with
  | nil => rfl
  | cons ht hrest ih =>
    rcases ht with ⟨heq, hperm, hsame | hdist⟩
    · simp only [List.map_cons, ih]
      congr 1
      rw [heq, hsame]
    · simp only [List.map_cons, ih]
      congr 1
      rw [heq]
      have hs : MidiGenerator.sortByTime _ = MidiGenerator.sortByTime _ :=
        (sortByTime_eq_of_perm hperm hdist).symm
      unfold MidiGenerator.instrumentTrackChunk
      dsimp only
      rw [hs]

/-- Claim C10 (confirmed): the encoder sorts each track's notes by start
time before emitting events, so permuting the stored note order of any
tracks whose notes have pairwise distinct start times leaves the encoded
bytes unchanged; the remaining tracks — including ones holding simultaneous
chord notes with equal start times — keep their stored order and need no
distinctness. -/
theorem c10_encode_note_order_invariant (c c' : MusicComposition)
    (tracks' : List MusicTrack)
    (hc : c' = { c with tracks := tracks' })
    (h : List.Forall₂ (fun t t' =>
      t' = { t with notes := t'.notes } ∧ List.Perm t.notes t'.notes ∧
      (t'.notes = t.notes ∨
        t.notes.Pairwise (fun a b => a.time ≠ b.time))) c.tracks tracks') :
    MidiGenerator.generate c' = MidiGenerator.generate c := by
  subst hc
  have hmap := instrumentChunk_map_eq c.tempo h
  unfold MidiGenerator.generate MidiGenerator.midiTracks
  dsimp only
  rw [hmap]
  rfl

theorem c10_encode_note_order_invariant_witness :
    MidiGenerator.generate
        (compWith [chordTrack, trackWith [lateNote, earlyNote]]) =
      MidiGenerator.generate
        (compWith [chordTrack, trackWith [earlyNote, lateNote]]) :=
  c10_encode_note_order_invariant
    (compWith [chordTrack, trackWith [earlyNote, lateNote]])
    (compWith [chordTrack, trackWith [lateNote, earlyNote]])
    [chordTrack, trackWith [lateNote, earlyNote]] rfl
    (List.Forall₂.cons ⟨rfl, List.Perm.refl _, Or.inl rfl⟩
      (List.Forall₂.cons
        ⟨rfl, List.Perm.swap lateNote earlyNote [],
         Or.inr (by with_unfolding_all decide)⟩
        List.Forall₂.nil))
